import Mathlib

set_option autoImplicit false
set_option linter.unusedVariables false

/-!
Shallow embedding of the ModelServe operator core: the admission webhook
(defaulting, validation, signed-token check), the child-spec builders
(deployment, service, ingress, strip-prefix config map) and the Reconcile
control loop, translated from the Go sources of the repository
(operator/api/v1alpha1 types and webhook, operator controller).  Machine
integers of the source (int32) are modelled as Int; none of the embedded
computations can overflow at the values the claims exercise.  External
library primitives of the Go standard library (HMAC-SHA256 and JSON
unmarshalling) enter the model as explicit function parameters; the
base64url codec (encoding/base64 RawURLEncoding, unpadded) is modelled
concretely.
-/

namespace InferenceOperator

/-- JWT payload record decoded by the validating webhook (JWTClaims in the
webhook source: sub, type, exp, iat). -/
structure JWTClaims where
  sub : String
  type : String
  exp : Int
  iat : Int
deriving DecidableEq, Repr

/-- Object metadata of a ModelServe resource: name, namespace and the
annotation map, modelled as an association list (the webhook reads a single
key from it). -/
structure ObjectMeta where
  name : String
  ns : String
  annots : List (String × String)
deriving DecidableEq, Repr

/-- ModelServeSpec from the operator API types: desired state of a
ModelServe.  Replicas is a nullable pointer in the source, hence Option. -/
structure ModelServeSpec where
  modelName : String
  modelUUID : String
  minioPath : String
  minioEndpoint : String
  minioBucket : String
  image : String
  replicas : Option Int
  runtimeParams : String
  memoryLimit : Int
  cpuLimit : Int
deriving DecidableEq, Repr

/-- ModelServeStatus from the operator API types: observed state written by
the reconciler.  StartedAt is a nullable timestamp, modelled as Option Int
(seconds). -/
structure ModelServeStatus where
  availableReplicas : Int
  phase : String
  gatewayURL : String
  serviceName : String
  podName : String
  startedAt : Option Int
  message : String
deriving DecidableEq, Repr

/-- A ModelServe custom resource: metadata, spec and status. -/
structure ModelServe where
  meta : ObjectMeta
  spec : ModelServeSpec
  status : ModelServeStatus
deriving DecidableEq, Repr

/-! Base64url codec (Go encoding/base64 RawURLEncoding: URL alphabet, no
padding).  Bytes are Nat; the encoder masks every 6-bit group, which is the
identity on real byte input. -/

/-- The base64url alphabet. -/
def b64urlAlphabet : List Char :=
  "ABCDEFGHIJKLMNOPQRSTUVWXYZabcdefghijklmnopqrstuvwxyz0123456789-_".toList

/-- Character of a 6-bit group. -/
def b64char (n : Nat) : Char := b64urlAlphabet.getD n 'A'

/-- Value of an alphabet character, none for a character outside the
alphabet. -/
def b64val (c : Char) : Option Nat := b64urlAlphabet.indexOf? c

/-- Unpadded base64url encoding of a byte list, three bytes to four
characters, with the standard 1- and 2-byte tails. -/
def encodeB64Chunks : List Nat → List Char
  | [] => []
  | [a] =>
      [b64char ((a >>> 2) &&& 63), b64char ((a <<< 4) &&& 63)]
  | [a, b] =>
      [b64char ((a >>> 2) &&& 63), b64char (((a <<< 4) ||| (b >>> 4)) &&& 63),
       b64char ((b <<< 2) &&& 63)]
  | a :: b :: c :: rest =>
      b64char ((a >>> 2) &&& 63) :: b64char (((a <<< 4) ||| (b >>> 4)) &&& 63) ::
      b64char (((b <<< 2) ||| (c >>> 6)) &&& 63) :: b64char (c &&& 63) ::
      encodeB64Chunks rest

/-- Unpadded base64url decoding, four characters to three bytes, with the
2- and 3-character tails; a 1-character tail or a character outside the
alphabet is a decode error. -/
def decodeB64Chunks : List Char → Option (List Nat)
  | [] => some []
  | [_] => none
  | [c1, c2] => do
      let v1 ← b64val c1
      let v2 ← b64val c2
      pure [((v1 <<< 2) ||| (v2 >>> 4)) &&& 255]
  | [c1, c2, c3] => do
      let v1 ← b64val c1
      let v2 ← b64val c2
      let v3 ← b64val c3
      pure [((v1 <<< 2) ||| (v2 >>> 4)) &&& 255, ((v2 <<< 4) ||| (v3 >>> 2)) &&& 255]
  | c1 :: c2 :: c3 :: c4 :: rest => do
      let v1 ← b64val c1
      let v2 ← b64val c2
      let v3 ← b64val c3
      let v4 ← b64val c4
      let tail ← decodeB64Chunks rest
      pure ((((v1 <<< 2) ||| (v2 >>> 4)) &&& 255) :: (((v2 <<< 4) ||| (v3 >>> 2)) &&& 255) ::
            ((((v3 <<< 6) ||| v4)) &&& 255) :: tail)

/-- base64.RawURLEncoding.EncodeToString. -/
def rawURLEncode (bs : List Nat) : String := String.mk (encodeB64Chunks bs)

/-- base64.RawURLEncoding.DecodeString. -/
def rawURLDecode (s : String) : Option (List Nat) := decodeB64Chunks s.data

/-- Annotation key carrying the optional signed token. -/
def authTokenKey : String := "model.example.com/auth-token"

/-- Shared secret used for the token HMAC: the JWT_SECRET process variable,
with the hardcoded fallback of the webhook source. -/
def jwtSecretFromEnv (vars : String → String) : String :=
  if vars "JWT_SECRET" = "" then "your-secret-key-change-in-production"
  else vars "JWT_SECRET"

/-- Shallow embedding of the webhook method validateJWT.  The parameters
hmacSHA256 (secret and message to MAC bytes) and unmarshalClaims (payload
bytes to a claims record, none on a JSON error) stand for the crypto/hmac
and encoding/json library calls of the source; vars is the process
environment and now the current Unix time. -/
def validateJWT (hmacSHA256 : String → String → List Nat)
    (unmarshalClaims : List Nat → Option JWTClaims)
    (vars : String → String) (now : Int) (r : ModelServe) : Except String Unit :=
  let jwtSecret := jwtSecretFromEnv vars
  match r.meta.annots.lookup authTokenKey with
  | none => .ok ()
  | some token =>
    let parts := token.splitOn "."
    if parts.length ≠ 3 then .error "invalid JWT format"
    else
      match rawURLDecode (parts.getD 0 "") with
      | none => .error "invalid JWT header"
      | some _ =>
        match rawURLDecode (parts.getD 1 "") with
        | none => .error "invalid JWT payload"
        | some payloadBytes =>
          match unmarshalClaims payloadBytes with
          | none => .error "invalid JWT claims"
          | some claims =>
            let signatureInput := parts.getD 0 "" ++ "." ++ parts.getD 1 ""
            let expectedSignature := rawURLEncode (hmacSHA256 jwtSecret signatureInput)
            if parts.getD 2 "" ≠ expectedSignature then .error "invalid JWT signature"
            else if claims.exp < now then .error "JWT token has expired"
            else if claims.type ≠ "internal" ∧ claims.type ≠ "user" then
              .error ("invalid token type: " ++ claims.type)
            else .ok ()

/-- Shallow embedding of the mutating webhook method Default: fill
unset or zero-valued optional spec fields with the hardcoded defaults.
The source assigns the six fields one after the other; each assignment
reads only the field it sets, so the updates are assembled in one record
literal. -/
def Default (r : ModelServe) : ModelServe :=
  { r with spec :=
    { r.spec with
      replicas := if r.spec.replicas = none then some 1 else r.spec.replicas
      memoryLimit := if r.spec.memoryLimit = 0 then 4096 else r.spec.memoryLimit
      cpuLimit := if r.spec.cpuLimit = 0 then 2000 else r.spec.cpuLimit
      minioBucket := if r.spec.minioBucket = "" then "inference-models" else r.spec.minioBucket
      minioEndpoint := if r.spec.minioEndpoint = "" then "minio:9000" else r.spec.minioEndpoint
      image := if r.spec.image = "" then "ghcr.io/ggerganov/llama.cpp:server" else r.spec.image } }

/-- Replicas bound test of the validating webhook: a non-nil replicas
pointer whose value exceeds 5. -/
def replicasTooHigh (s : ModelServeSpec) : Bool :=
  match s.replicas with
  | some n => 5 < n
  | none => false

/-- Shallow embedding of the validating webhook method ValidateCreate:
token check, required fields, then the replicas, memory and cpu bounds. -/
def ValidateCreate (hmacSHA256 : String → String → List Nat)
    (unmarshalClaims : List Nat → Option JWTClaims)
    (vars : String → String) (now : Int) (r : ModelServe) : Except String Unit :=
  match validateJWT hmacSHA256 unmarshalClaims vars now r with
  | .error e => .error e
  | .ok _ =>
    if r.spec.modelName = "" then .error "modelName is required"
    else if r.spec.modelUUID = "" then .error "modelUuid is required"
    else if r.spec.minioPath = "" then .error "minioPath is required"
    else if replicasTooHigh r.spec then .error "replicas cannot exceed 5"
    else if 32768 < r.spec.memoryLimit then .error "memoryLimit cannot exceed 32768 MB (32GB)"
    else if 16000 < r.spec.cpuLimit then .error "cpuLimit cannot exceed 16000m (16 cores)"
    else .ok ()

/-- Shallow embedding of the validating webhook method ValidateUpdate:
token check, then only the replicas bound (the old object is unused by the
source). -/
def ValidateUpdate (hmacSHA256 : String → String → List Nat)
    (unmarshalClaims : List Nat → Option JWTClaims)
    (vars : String → String) (now : Int) (old r : ModelServe) : Except String Unit :=
  match validateJWT hmacSHA256 unmarshalClaims vars now r with
  | .error e => .error e
  | .ok _ =>
    if replicasTooHigh r.spec then .error "replicas cannot exceed 5"
    else .ok ()

/-- Shallow embedding of the validating webhook method ValidateDelete:
only the token check. -/
def ValidateDelete (hmacSHA256 : String → String → List Nat)
    (unmarshalClaims : List Nat → Option JWTClaims)
    (vars : String → String) (now : Int) (r : ModelServe) : Except String Unit :=
  match validateJWT hmacSHA256 unmarshalClaims vars now r with
  | .error e => .error e
  | .ok _ => .ok ()

/-! Kubernetes child objects, with exactly the fields that the child-spec
builders of the controller set. -/

/-- A container port. -/
structure ContainerPort where
  containerPort : Int
  name : String := ""
deriving DecidableEq, Repr

/-- Source of an environment variable value: a secret key reference or a
config-map key reference. -/
inductive EnvVarSource where
  | secretKeyRef (localObjectReference : String) (key : String)
  | configMapKeyRef (localObjectReference : String) (key : String)
deriving DecidableEq, Repr

/-- An environment variable binding of a container. -/
structure EnvVar where
  name : String
  value : String := ""
  valueFrom : Option EnvVarSource := none
deriving DecidableEq, Repr

/-- A volume mount of a container. -/
structure VolumeMount where
  name : String
  mountPath : String
deriving DecidableEq, Repr

/-- A resource list (memory and cpu quantity strings, as passed to
resource.MustParse). -/
structure ResourceList where
  memory : Option String := none
  cpu : Option String := none
deriving DecidableEq, Repr

/-- Resource requests and limits of a container. -/
structure ResourceRequirements where
  requests : ResourceList := {}
  limits : ResourceList := {}
deriving DecidableEq, Repr

/-- An HTTP-get probe. -/
structure Probe where
  httpGetPath : String
  httpGetPort : Int
  initialDelaySeconds : Int
  periodSeconds : Int
deriving DecidableEq, Repr

/-- A container of a pod template. -/
structure Container where
  name : String
  image : String
  command : List String := []
  args : List String := []
  ports : List ContainerPort := []
  env : List EnvVar := []
  volumeMounts : List VolumeMount := []
  resources : ResourceRequirements := {}
  readinessProbe : Option Probe := none
  livenessProbe : Option Probe := none
deriving DecidableEq, Repr

/-- A volume source: emptyDir with a byte size limit, a config-map
reference, or a host path. -/
inductive VolumeSource where
  | emptyDir (sizeLimitBytes : Int)
  | configMap (localObjectReference : String)
  | hostPath (path : String)
deriving DecidableEq, Repr

/-- A pod volume. -/
structure Volume where
  name : String
  source : VolumeSource
deriving DecidableEq, Repr

/-- A pod template spec. -/
structure PodTemplateSpec where
  labels : List (String × String)
  annots : List (String × String) := []
  shareProcessNamespace : Bool
  initContainers : List Container := []
  containers : List Container
  volumes : List Volume
deriving DecidableEq, Repr

/-- Observed status of a deployment (the reconciler reads only the
available-replica count). -/
structure DeploymentStatus where
  availableReplicas : Int := 0
deriving DecidableEq, Repr

/-- A deployment object. -/
structure Deployment where
  name : String
  ns : String
  labels : List (String × String) := []
  replicas : Int
  selector : List (String × String)
  template : PodTemplateSpec
  status : DeploymentStatus := {}
deriving DecidableEq, Repr

/-- A service port mapping. -/
structure ServicePort where
  port : Int
  targetPort : Int
deriving DecidableEq, Repr

/-- A service object. -/
structure Service where
  name : String
  ns : String
  labels : List (String × String) := []
  selector : List (String × String)
  ports : List ServicePort
  type : String
deriving DecidableEq, Repr

/-- An HTTP ingress path rule. -/
structure IngressPath where
  path : String
  pathType : String
  backendServiceName : String
  backendServicePortNumber : Int
deriving DecidableEq, Repr

/-- An ingress object. -/
structure Ingress where
  name : String
  ns : String
  annots : List (String × String)
  labels : List (String × String)
  ingressClassName : String
  paths : List IngressPath
deriving DecidableEq, Repr

/-- A config map object. -/
structure ConfigMap where
  name : String
  ns : String
  labels : List (String × String) := []
  data : List (String × String)
deriving DecidableEq, Repr

/-- A pod, as the reconciler observes it: name and phase. -/
structure Pod where
  name : String
  phase : String
deriving DecidableEq, Repr

/-- getEnvOrDefault from the controller: the process variable when set and
non-empty, the given default otherwise.  The process environment is
modelled as a total function, empty string meaning unset, exactly the
os.Getenv contract. -/
def getEnvOrDefault (vars : String → String) (key defaultValue : String) : String :=
  if vars key ≠ "" then vars key else defaultValue

/-- labelsForModelServe from the controller. -/
def labelsForModelServe (name : String) : List (String × String) :=
  [("app", "model-serve"), ("model_serve_cr", name)]

/-- strings.Fields: whitespace tokenisation, no empty tokens. -/
def stringFields (s : String) : List String :=
  (s.split Char.isWhitespace).filter (fun t => t ≠ "")

/-- The shell script of the init container that downloads the model from
MinIO (the fmt.Sprintf literal of the controller). -/
def downloadScript (minioEndpoint minioBucket minioPath modelName : String) : String :=
  "\nset -e\necho \"Configuring MinIO client...\"\nmc alias set minio http://" ++
  minioEndpoint ++ " $MINIO_ACCESS_KEY $MINIO_SECRET_KEY\n\n" ++
  "echo \"Downloading model from MinIO...\"\nmc cp minio/" ++ minioBucket ++ "/" ++
  minioPath ++ " /models/" ++ modelName ++
  "\n\necho \"Model downloaded successfully\"\nls -la /models/\n"

/-- deploymentForModelServe from the controller (the MinIO-init-container
version): the desired workload for a ModelServe, re-applying each default
locally; the MinIO endpoint and bucket defaults come from the process
environment. -/
def deploymentForModelServe (vars : String → String) (m : ModelServe) : Deployment :=
  let ls := labelsForModelServe m.meta.name
  let replicas : Int :=
    match m.spec.replicas with
    | none => 1
    | some r => r
  let image := if m.spec.image = "" then "ghcr.io/ggerganov/llama.cpp:server" else m.spec.image
  let minioEndpoint :=
    if m.spec.minioEndpoint = "" then getEnvOrDefault vars "MINIO_ENDPOINT" "minio:9000"
    else m.spec.minioEndpoint
  let minioBucket :=
    if m.spec.minioBucket = "" then getEnvOrDefault vars "MINIO_BUCKET" "inference-models"
    else m.spec.minioBucket
  let minioPath :=
    if m.spec.minioPath = "" then "models/" ++ m.spec.modelName else m.spec.minioPath
  let memoryLimit := if m.spec.memoryLimit = 0 then 4096 else m.spec.memoryLimit
  let cpuLimit := if m.spec.cpuLimit = 0 then 2000 else m.spec.cpuLimit
  let llamaArgs := ["-m", "/models/" ++ m.spec.modelName, "--host", "0.0.0.0", "--port", "8080"]
  let llamaArgs :=
    if m.spec.runtimeParams ≠ "" then llamaArgs ++ stringFields m.spec.runtimeParams
    else llamaArgs
  { name := m.meta.name
    ns := m.meta.ns
    labels := ls
    replicas := replicas
    selector := ls
    template :=
      { labels := ls
        annots := [("model-uuid", m.spec.modelUUID)]
        shareProcessNamespace := true
        initContainers :=
          [{ name := "download-model"
             image := "minio/mc:latest"
             command := ["/bin/sh", "-c"]
             args := [downloadScript minioEndpoint minioBucket minioPath m.spec.modelName]
             env :=
               [{ name := "MINIO_ACCESS_KEY"
                  valueFrom := some (.secretKeyRef "inference-secrets" "MINIO_ACCESS_KEY") },
                { name := "MINIO_SECRET_KEY"
                  valueFrom := some (.secretKeyRef "inference-secrets" "MINIO_SECRET_KEY") }]
             volumeMounts := [{ name := "model-volume", mountPath := "/models" }] }]
        containers :=
          [{ name := "llama-server"
             image := image
             args := llamaArgs
             ports := [{ containerPort := 8080, name := "http" }]
             volumeMounts := [{ name := "model-volume", mountPath := "/models" }]
             resources :=
               { requests :=
                   { memory := some (toString (Int.tdiv memoryLimit 2) ++ "Mi")
                     cpu := some (toString (Int.tdiv cpuLimit 2) ++ "m") }
                 limits :=
                   { memory := some (toString memoryLimit ++ "Mi")
                     cpu := some (toString cpuLimit ++ "m") } }
             readinessProbe :=
               some { httpGetPath := "/health", httpGetPort := 8080,
                      initialDelaySeconds := 30, periodSeconds := 10 }
             livenessProbe :=
               some { httpGetPath := "/health", httpGetPort := 8080,
                      initialDelaySeconds := 60, periodSeconds := 30 } },
           { name := "monitor-sidecar"
             image := "python:3.9-slim"
             command := ["/bin/sh", "-c"]
             args := ["pip install psycopg2-binary psutil requests && python /scripts/monitor.py"]
             env :=
               [{ name := "SERVER_UUID", value := m.meta.name },
                { name := "MODEL_UUID", value := m.spec.modelUUID },
                { name := "MODEL_NAME", value := m.spec.modelName },
                { name := "DATABASE_URL"
                  valueFrom := some (.configMapKeyRef "inference-config" "DATABASE_URL") }]
             volumeMounts := [{ name := "monitor-script", mountPath := "/scripts" }]
             resources :=
               { requests := { memory := some "64Mi", cpu := some "50m" }
                 limits := { memory := some "128Mi", cpu := some "100m" } } }]
        volumes :=
          [{ name := "model-volume", source := .emptyDir (10 * 1024 * 1024 * 1024) },
           { name := "monitor-script", source := .configMap "monitor-script" }] } }

/-- serviceForModelServe from the controller: the stable internal address
of the workload. -/
def serviceForModelServe (m : ModelServe) : Service :=
  let ls := labelsForModelServe m.meta.name
  { name := m.meta.name
    ns := m.meta.ns
    labels := ls
    selector := ls
    ports := [{ port := 80, targetPort := 8080 }]
    type := "ClusterIP" }

/-- ingressForModelServe from the controller (the middleware-chain
version): path-prefix rule with the jwt-auth and strip-prefix middleware
chain annotation. -/
def ingressForModelServe (m : ModelServe) : Ingress :=
  let ls := labelsForModelServe m.meta.name
  let middlewares :=
    m.meta.ns ++ "-jwt-auth@kubernetescrd," ++ m.meta.ns ++ "-" ++ m.meta.name ++
    "-stripprefix@kubernetescrd"
  { name := m.meta.name
    ns := m.meta.ns
    annots := [("traefik.ingress.kubernetes.io/router.middlewares", middlewares)]
    labels := ls
    ingressClassName := "traefik"
    paths :=
      [{ path := "/" ++ m.meta.name
         pathType := "Prefix"
         backendServiceName := m.meta.name
         backendServicePortNumber := 80 }] }

/-- The strip-prefix middleware config map built inside
createStripPrefixMiddleware. -/
def stripPrefixConfigMap (m : ModelServe) : ConfigMap :=
  { name := m.meta.name ++ "-stripprefix"
    ns := m.meta.ns
    labels := labelsForModelServe m.meta.name
    data :=
      [("middleware.yaml",
        "\napiVersion: traefik.containo.us/v1alpha1\nkind: Middleware\nmetadata:\n  name: " ++
        m.meta.name ++ "-stripprefix\n  namespace: " ++ m.meta.ns ++
        "\nspec:\n  stripPrefix:\n    prefixes:\n      - /" ++ m.meta.name ++ "\n")] }

/-! The reconcile loop.  Each interaction with the object store is an
injected outcome carried by an environment record, so that one translation
of the Go function covers both the honest store and the fault cases
(already-exists races, transient errors). -/

/-- Result of a store get: the object, not-found, or another error. -/
inductive GetRes (α : Type) where
  | found (a : α)
  | notFound
  | err (msg : String)
deriving DecidableEq, Repr

/-- Error of a store create: the already-exists conflict or another
error. -/
inductive CreateErr where
  | alreadyExists (msg : String)
  | other (msg : String)
deriving DecidableEq, Repr

/-- Message of a create error. -/
def CreateErr.msg : CreateErr → String
  | .alreadyExists m => m
  | .other m => m

/-- Environment of one Reconcile invocation: process variables, current
time, and the outcome of every store call the invocation may make.
statusRes is the outcome of each status write (none meaning success). -/
structure Env where
  vars : String → String
  now : Int
  msGet : GetRes ModelServe
  statusRes : Option String
  cmGet : GetRes ConfigMap
  cmCreate : Option CreateErr
  depGet : GetRes Deployment
  depCreate : Option CreateErr
  svcGet : GetRes Service
  svcCreate : Option CreateErr
  ingGet : GetRes Ingress
  ingCreate : Option CreateErr
  podList : Option (List Pod)

/-- A child object passed to a store create call. -/
inductive ChildObj where
  | cm (c : ConfigMap)
  | dep (d : Deployment)
  | svc (s : Service)
  | ing (i : Ingress)
deriving DecidableEq, Repr

/-- Observable outcome of one Reconcile invocation: the create calls it
issued, the status writes it issued (full parent objects, in order), the
requeue flag of the result, and the returned error. -/
structure Output where
  creates : List ChildObj
  statusWrites : List ModelServe
  requeue : Bool
  err : Option String
deriving DecidableEq, Repr

/-- The status recomputation block of Reconcile (the needsStatusUpdate
logic): returns the new status and whether a write is needed.  The source
performs the field assignments one after the other; every guard reads only
fields that no earlier assignment of the block writes, and a guarded
assignment writes exactly the value the guard compared against, so the
mirrored fields always end up at the observed values and each guard is
stated over the incoming status. -/
def recomputeStatus (now : Int) (podList : Option (List Pod)) (found : Deployment)
    (svcName msName : String) (st0 : ModelServeStatus) : ModelServeStatus × Bool :=
  let gatewayURL := "http://localhost/" ++ msName
  let avail := found.status.availableReplicas
  let base : ModelServeStatus :=
    { st0 with availableReplicas := avail, serviceName := svcName, gatewayURL := gatewayURL }
  let changed0 : Bool :=
    (avail ≠ st0.availableReplicas) || (st0.serviceName ≠ svcName) ||
      (st0.gatewayURL ≠ gatewayURL)
  if 0 < avail then
    let afterPhase :=
      if st0.phase ≠ "Running" then
        ({ base with phase := "Running", message := "Model server is running", startedAt := some now }, true)
      else (base, changed0)
    match podList with
    | some pods =>
      if 0 < pods.length then
        match pods.find? (fun p => p.phase = "Running") with
        | some pod =>
          if st0.podName ≠ pod.name then ({ afterPhase.1 with podName := pod.name }, true)
          else afterPhase
        | none => afterPhase
      else afterPhase
    | none => afterPhase
  else
    if st0.phase ≠ "Downloading" ∧ st0.phase ≠ "Failed" then
      ({ base with phase := "Pending", message := "Waiting for pod to be ready" }, true)
    else (base, changed0)

/-- The tail of Reconcile after all children were found: recompute status
and write it only when flagged. -/
def statusStage (env : Env) (creates : List ChildObj) (writes : List ModelServe)
    (ms : ModelServe) (found : Deployment) (svc : Service) : Output :=
  let r := recomputeStatus env.now env.podList found svc.name ms.meta.name ms.status
  if r.2 then
    ⟨creates, writes ++ [{ ms with status := r.1 }], false, env.statusRes⟩
  else ⟨creates, writes, false, none⟩

/-- The ingress ensure-exists block of Reconcile: found is a no-op,
not-found attempts a create (success requeues, failure returns the
error). -/
def ingressStage (env : Env) (creates : List ChildObj) (writes : List ModelServe)
    (ms : ModelServe) (found : Deployment) (svc : Service) : Output :=
  let ing := ingressForModelServe ms
  match env.ingGet with
  | .found _ => statusStage env creates writes ms found svc
  | .err m => ⟨creates, writes, false, some m⟩
  | .notFound =>
    match env.ingCreate with
    | none => ⟨creates ++ [.ing ing], writes, true, none⟩
    | some ce => ⟨creates ++ [.ing ing], writes, false, some ce.msg⟩

/-- The service ensure-exists block of Reconcile. -/
def serviceStage (env : Env) (creates : List ChildObj) (writes : List ModelServe)
    (ms : ModelServe) (found : Deployment) : Output :=
  let svc := serviceForModelServe ms
  match env.svcGet with
  | .found _ => ingressStage env creates writes ms found svc
  | .err m => ⟨creates, writes, false, some m⟩
  | .notFound =>
    match env.svcCreate with
    | none => ⟨creates ++ [.svc svc], writes, true, none⟩
    | some ce => ⟨creates ++ [.svc svc], writes, false, some ce.msg⟩

/-- The deployment ensure-exists block of Reconcile: not-found first
writes phase Downloading (the write result is ignored by the source), then
creates; a create failure writes phase Failed (result ignored) and returns
the error; success requeues. -/
def deploymentStage (env : Env) (creates : List ChildObj) (writes : List ModelServe)
    (ms : ModelServe) : Output :=
  let dep := deploymentForModelServe env.vars ms
  match env.depGet with
  | .found found => serviceStage env creates writes ms found
  | .err m => ⟨creates, writes, false, some m⟩
  | .notFound =>
    let st2 := { ms.status with phase := "Downloading", message := "Downloading model from MinIO" }
    let ms2 := { ms with status := st2 }
    match env.depCreate with
    | none => ⟨creates ++ [.dep dep], writes ++ [ms2], true, none⟩
    | some ce =>
      let st3 := { st2 with phase := "Failed", message := "Failed to create deployment: " ++ ce.msg }
      let ms3 := { ms2 with status := st3 }
      ⟨creates ++ [.dep dep], writes ++ [ms2, ms3], false, some ce.msg⟩

/-- createStripPrefixMiddleware from the controller: ensure the
strip-prefix config map exists; returns the create calls issued and the
error to propagate, none on success. -/
def createStripPrefixMiddleware (env : Env) (m : ModelServe) : List ChildObj × Option String :=
  let middleware := stripPrefixConfigMap m
  match env.cmGet with
  | .found _ => ([], none)
  | .err msg => ([], some msg)
  | .notFound =>
    match env.cmCreate with
    | none => ([.cm middleware], none)
    | some ce => ([.cm middleware], some ce.msg)

/-- Shallow embedding of the controller method Reconcile (the version with
middleware and phase handling): fetch the object, write the initial
Pending phase when unset, ensure the strip-prefix config map, the
deployment, the service and the ingress exist, then recompute and
conditionally persist status. -/
def Reconcile (env : Env) : Output :=
  match env.msGet with
  | .err m => ⟨[], [], false, some m⟩
  | .notFound => ⟨[], [], false, none⟩
  | .found ms0 =>
    let step := fun (ms : ModelServe) (writes : List ModelServe) =>
      let cmRes := createStripPrefixMiddleware env ms
      match cmRes.2 with
      | some e => (⟨cmRes.1, writes, false, some e⟩ : Output)
      | none => deploymentStage env cmRes.1 writes ms
    if ms0.status.phase = "" then
      let st1 := { ms0.status with phase := "Pending", message := "Initializing model server" }
      let ms1 := { ms0 with status := st1 }
      match env.statusRes with
      | some e => ⟨[], [ms1], false, some e⟩
      | none => step ms1 [ms1]
    else step ms0 []

/-! The honest store: a world record holding the parent and its children,
an environment built from it with every call succeeding, and the
application of an invocation result back onto the world (status writes go
through the status subresource, so only the status is persisted). -/

/-- The object store state that one Reconcile key sees. -/
structure World where
  ms : Option ModelServe
  cm : Option ConfigMap
  dep : Option Deployment
  svc : Option Service
  ing : Option Ingress
  pods : List Pod
deriving DecidableEq, Repr

/-- A get outcome read honestly from an optional stored object. -/
def getResOf {α : Type} : Option α → GetRes α
  | some a => .found a
  | none => .notFound

/-- The honest environment of a world: gets reflect the store, every
create and status write succeeds, the pod list is the stored one. -/
def envOf (vars : String → String) (now : Int) (w : World) : Env :=
  { vars := vars
    now := now
    msGet := getResOf w.ms
    statusRes := none
    cmGet := getResOf w.cm
    cmCreate := none
    depGet := getResOf w.dep
    depCreate := none
    svcGet := getResOf w.svc
    svcCreate := none
    ingGet := getResOf w.ing
    ingCreate := none
    podList := some w.pods }

/-- Apply one issued create to the store. -/
def applyCreate (w : World) : ChildObj → World
  | .cm c => { w with cm := some c }
  | .dep d => { w with dep := some d }
  | .svc s => { w with svc := some s }
  | .ing i => { w with ing := some i }

/-- Apply an invocation outcome to the store: creates land as stored
children; the last status write is persisted through the status
subresource (only the status of the parent changes). -/
def applyOutput (w : World) (o : Output) : World :=
  let w1 := o.creates.foldl applyCreate w
  match w1.ms, o.statusWrites.getLast? with
  | some m, some m2 => { w1 with ms := some { m with status := m2.status } }
  | _, _ => w1

/-- One reconcile invocation against the honest store. -/
def runStep (vars : String → String) (now : Int) (w : World) : World × Output :=
  let o := Reconcile (envOf vars now w)
  (applyOutput w o, o)

/-- External change between invocations: the platform updates the observed
available-replica count of the stored deployment. -/
def setAvail (w : World) (a : Int) : World :=
  { w with dep := w.dep.map (fun d => { d with status := { availableReplicas := a } }) }

/-- Run a sequence of invocations; each list entry carries the
available-replica count the deployment reports at that invocation and the
invocation time. -/
def runTrace (vars : String → String) (w : World) : List (Int × Int) → World × List Output
  | [] => (w, [])
  | (a, t) :: rest =>
    let s := runStep vars t (setAvail w a)
    let r := runTrace vars s.1 rest
    (r.1, s.2 :: r.2)

/-- Phases of the status writes of one invocation, in order. -/
def writtenPhases (o : Output) : List String := o.statusWrites.map (fun m => m.status.phase)

/-- Phases of the status writes of a run, in order. -/
def tracePhases (os : List Output) : List String := (os.map writtenPhases).flatten

/-- Once an entry of a trace reports a positive available-replica count,
all later entries do too (the no-failure ramp-up of a fresh object). -/
def persistentB : List (Int × Int) → Bool
  | [] => true
  | x :: xs => (if 0 < x.1 then xs.all (fun y => 0 < y.1) else true) && persistentB xs

/-- Shorthand: a status stamped Pending by the initial write. -/
def stPending (st : ModelServeStatus) : ModelServeStatus :=
  { st with phase := "Pending", message := "Initializing model server" }

/-- Shorthand: a status stamped Downloading by the deployment-create
write. -/
def stDownloading (st : ModelServeStatus) : ModelServeStatus :=
  { st with phase := "Downloading", message := "Downloading model from MinIO" }

/-! Auxiliary facts about the base64url codec. -/

/-- Alphabet lookup inverts the character of any 6-bit group. -/
theorem b64val_b64char : ∀ n : Nat, n < 64 → b64val (b64char n) = some n := by decide

/-- Alphabet lookup inverts the character of a masked group. -/
theorem b64val_b64char_mask (x : Nat) : b64val (b64char (x &&& 63)) = some (x &&& 63) :=
  b64val_b64char _ (Nat.lt_succ_of_le (Nat.and_le_right))

/-- Decoding succeeds on every encoder output. -/
theorem decode_encode_isSome :
    ∀ bs : List Nat, (decodeB64Chunks (encodeB64Chunks bs)).isSome = true
  | [] => by simp [encodeB64Chunks, decodeB64Chunks]
  | [a] => by
      simp [encodeB64Chunks, decodeB64Chunks, b64val_b64char_mask]
  | [a, b] => by
      simp [encodeB64Chunks, decodeB64Chunks, b64val_b64char_mask]
  | a :: b :: c :: rest => by
      have ih := decode_encode_isSome rest
      simp [encodeB64Chunks, decodeB64Chunks, b64val_b64char_mask, Option.bind]
      cases hr : decodeB64Chunks (encodeB64Chunks rest) with
      | none => rw [hr] at ih; simp at ih
      | some tl => simp

/-- Decoding succeeds on every encoded string. -/
theorem rawURLDecode_rawURLEncode_isSome (bs : List Nat) :
    (rawURLDecode (rawURLEncode bs)).isSome = true :=
  decode_encode_isSome bs

/-! Concrete fixtures used by witnesses and counterexamples. -/

/-- A trivial MAC standing in for HMAC-SHA256 in concrete evaluations. -/
def zeroMac : String → String → List Nat := fun _ _ => []

/-- A trivial claims decoder for concrete evaluations. -/
def zeroUnmarshal : List Nat → Option JWTClaims := fun _ => none

/-- An empty process environment. -/
def noVars : String → String := fun _ => ""

/-- A concrete well-formed ModelServe, phase unset, no annotation. -/
def demoMS : ModelServe :=
  { meta := { name := "demo", ns := "default", annots := [] }
    spec := { modelName := "demo.gguf", modelUUID := "u-1", minioPath := "models/demo.bin",
              minioEndpoint := "", minioBucket := "", image := "", replicas := none,
              runtimeParams := "", memoryLimit := 0, cpuLimit := 0 }
    status := { availableReplicas := 0, phase := "", gatewayURL := "", serviceName := "",
                podName := "", startedAt := none, message := "" } }

/-- demoMS with an over-limit memory request. -/
def demoMSBigMemory : ModelServe :=
  { demoMS with spec := { demoMS.spec with memoryLimit := 40000 } }

/-- demoMS with an explicit zero replicas pointer. -/
def demoMSZeroReplicas : ModelServe :=
  { demoMS with spec := { demoMS.spec with replicas := some 0 } }

/-! Claim C1 — bound rejection under create and update. -/

/-- C1 counterexample: under the update operation a candidate whose
memoryLimit is 40000 (above the 32768 bound) is accepted by the validator,
so the claim that the bound is enforced on update fails. -/
theorem c1_counterexample :
    32768 < demoMSBigMemory.spec.memoryLimit ∧
      (ValidateUpdate zeroMac zeroUnmarshal noVars 0 demoMS demoMSBigMemory).isOk = true := by
  decide

/-- C1 amended: create-time validation rejects whenever replicas exceeds 5
or memoryLimit exceeds 32768 or cpuLimit exceeds 16000; update-time
validation rejects whenever replicas exceeds 5 (it does not check the
memory and cpu bounds). -/
theorem c1_amended_bound_checks :
    (∀ (hmac : String → String → List Nat) (unmarshal : List Nat → Option JWTClaims)
        (vars : String → String) (now : Int) (r : ModelServe),
        ((∃ n, r.spec.replicas = some n ∧ 5 < n) ∨ 32768 < r.spec.memoryLimit ∨
          16000 < r.spec.cpuLimit) →
        (ValidateCreate hmac unmarshal vars now r).isOk = false)
    ∧ (∀ (hmac : String → String → List Nat) (unmarshal : List Nat → Option JWTClaims)
        (vars : String → String) (now : Int) (old r : ModelServe),
        (∃ n, r.spec.replicas = some n ∧ 5 < n) →
        (ValidateUpdate hmac unmarshal vars now old r).isOk = false) := by
  constructor
  · intro hmac unmarshal vars now r hbad
    unfold ValidateCreate
    cases validateJWT hmac unmarshal vars now r with
    | error e => simp [Except.isOk, Except.toBool, Except.toBool]
    | ok _ =>
      simp only []
      split
      · simp [Except.isOk, Except.toBool, Except.toBool]
      · split
        · simp [Except.isOk, Except.toBool, Except.toBool]
        · split
          · simp [Except.isOk, Except.toBool, Except.toBool]
          · split
            · simp [Except.isOk, Except.toBool, Except.toBool]
            · split
              · simp [Except.isOk, Except.toBool, Except.toBool]
              · split
                · simp [Except.isOk, Except.toBool, Except.toBool]
                · rename_i h1 h2 h3 hrep hmem hcpu
                  exfalso
                  rcases hbad with ⟨n, hn, hgt⟩ | hm | hc
                  · rw [replicasTooHigh, hn] at hrep
                    simp at hrep
                    omega
                  · omega
                  · omega
  · intro hmac unmarshal vars now old r hbad
    unfold ValidateUpdate
    cases validateJWT hmac unmarshal vars now r with
    | error e => simp [Except.isOk, Except.toBool, Except.toBool]
    | ok _ =>
      simp only []
      split
      · simp [Except.isOk, Except.toBool, Except.toBool]
      · rename_i hrep
        exfalso
        rcases hbad with ⟨n, hn, hgt⟩
        rw [replicasTooHigh, hn] at hrep
        simp at hrep
        omega

/-- C1 witness: the amended theorem applied at concrete inputs on both
sides (replicas 6 rejected at create, replicas 6 rejected at update). -/
theorem c1_amended_bound_checks_witness :
    (ValidateCreate zeroMac zeroUnmarshal noVars 0
        { demoMS with spec := { demoMS.spec with replicas := some 6 } }).isOk = false ∧
      (ValidateUpdate zeroMac zeroUnmarshal noVars 0 demoMS
        { demoMS with spec := { demoMS.spec with replicas := some 6 } }).isOk = false :=
  ⟨c1_amended_bound_checks.1 zeroMac zeroUnmarshal noVars 0 _
      (Or.inl ⟨6, rfl, by norm_num⟩),
   c1_amended_bound_checks.2 zeroMac zeroUnmarshal noVars 0 demoMS _
      ⟨6, rfl, by norm_num⟩⟩

/-! Claim C4 — replicas invariant after defaulting plus create
validation. -/

/-- C4 counterexample: an explicit replicas value 0 survives defaulting,
passes create validation, and violates the claimed lower bound 1. -/
theorem c4_counterexample :
    (ValidateCreate zeroMac zeroUnmarshal noVars 0 (Default demoMSZeroReplicas)).isOk = true ∧
      (Default demoMSZeroReplicas).spec.replicas = some 0 ∧ ¬ (1 ≤ (0 : Int)) := by
  decide

/-- Defaulting leaves an already-set replicas pointer unchanged and sets
an unset one to 1. -/
theorem Default_spec_replicas (r : ModelServe) :
    (Default r).spec.replicas =
      (if r.spec.replicas = none then some 1 else r.spec.replicas) := rfl

/-- C4 amended: after defaulting, any candidate accepted by create-time
validation has a set replicas value that is at most 5 (the lower bound 1
holds only when replicas was initially unset). -/
theorem c4_amended_replicas_upper_bound
    (hmac : String → String → List Nat) (unmarshal : List Nat → Option JWTClaims)
    (vars : String → String) (now : Int) (r : ModelServe)
    (hok : (ValidateCreate hmac unmarshal vars now (Default r)).isOk = true) :
    ∃ n, (Default r).spec.replicas = some n ∧ n ≤ 5 := by
  have hsome : ∃ n, (Default r).spec.replicas = some n := by
    rw [Default_spec_replicas r]
    cases hrep : r.spec.replicas with
    | none => exact ⟨1, by simp⟩
    | some k => exact ⟨k, by simp⟩
  rcases hsome with ⟨n, hn⟩
  refine ⟨n, hn, ?_⟩
  by_contra hgt
  push_neg at hgt
  have : (ValidateCreate hmac unmarshal vars now (Default r)).isOk = false := by
    unfold ValidateCreate
    cases validateJWT hmac unmarshal vars now (Default r) with
    | error e => simp [Except.isOk, Except.toBool, Except.toBool]
    | ok _ =>
      simp only []
      have hr : replicasTooHigh (Default r).spec = true := by
        rw [replicasTooHigh, hn]
        simp
        omega
      split
      · simp [Except.isOk, Except.toBool, Except.toBool]
      · split
        · simp [Except.isOk, Except.toBool, Except.toBool]
        · split
          · simp [Except.isOk, Except.toBool, Except.toBool]
          · simp [hr, Except.isOk, Except.toBool]
  rw [this] at hok
  exact Bool.false_ne_true hok

/-- C4 witness: the amended theorem applied at a concrete accepted
candidate. -/
theorem c4_amended_replicas_upper_bound_witness :
    (ValidateCreate zeroMac zeroUnmarshal noVars 0 (Default demoMS)).isOk = true ∧
      ∃ n, (Default demoMS).spec.replicas = some n ∧ n ≤ 5 :=
  ⟨by decide,
   c4_amended_replicas_upper_bound zeroMac zeroUnmarshal noVars 0 demoMS (by decide)⟩

/-! Claim C7 — the signed-token check. -/

/-- The acceptance condition of the signed-token check, written from the
claim: the annotation is absent, or the token has three base64url-decodable
segments, the recomputed MAC over header.payload under the shared secret
matches the signature segment, the payload decodes to a claims record whose
expiry is not in the past and whose declared type is internal or user. -/
def specTokenAccept (hmacSHA256 : String → String → List Nat)
    (unmarshalClaims : List Nat → Option JWTClaims)
    (secret : String) (now : Int) (token : String) : Prop :=
  let parts := token.splitOn "."
  parts.length = 3 ∧
  (rawURLDecode (parts.getD 0 "")).isSome = true ∧
  (rawURLDecode (parts.getD 1 "")).isSome = true ∧
  (rawURLDecode (parts.getD 2 "")).isSome = true ∧
  parts.getD 2 "" = rawURLEncode (hmacSHA256 secret (parts.getD 0 "" ++ "." ++ parts.getD 1 "")) ∧
  ∃ claims, (rawURLDecode (parts.getD 1 "")).bind unmarshalClaims = some claims ∧
    now ≤ claims.exp ∧ (claims.type = "internal" ∨ claims.type = "user")

/-- C7: the token check of the validator accepts exactly when the
auth-token annotation is absent, or the carried token satisfies the
claimed acceptance condition; every malformed, mis-signed, expired or
wrongly-typed token is rejected. -/
theorem c7_token_check (hmac : String → String → List Nat)
    (unmarshal : List Nat → Option JWTClaims)
    (vars : String → String) (now : Int) (r : ModelServe) :
    (validateJWT hmac unmarshal vars now r).isOk = true ↔
      (r.meta.annots.lookup authTokenKey = none ∨
       ∃ tok, r.meta.annots.lookup authTokenKey = some tok ∧
         specTokenAccept hmac unmarshal (jwtSecretFromEnv vars) now tok) := by
  unfold validateJWT
  cases h : r.meta.annots.lookup authTokenKey with
  | none => simp [Except.isOk, Except.toBool, Except.toBool]
  | some tok =>
    have hr : ((some tok : Option String) = none ∨
        ∃ t, (some tok : Option String) = some t ∧
          specTokenAccept hmac unmarshal (jwtSecretFromEnv vars) now t) ↔
        specTokenAccept hmac unmarshal (jwtSecretFromEnv vars) now tok := by
      simp
    rw [hr]
    dsimp only
    unfold specTokenAccept
    by_cases h3 : (tok.splitOn ".").length = 3
    · rw [if_neg (by simp [h3])]
      cases hh : rawURLDecode ((tok.splitOn ".").getD 0 "") with
      | none =>
        refine iff_of_false (by simp [Except.isOk, Except.toBool]) ?_
        rintro ⟨-, hs, -⟩
        rw [hh] at hs
        simp at hs
      | some hb =>
        cases hp : rawURLDecode ((tok.splitOn ".").getD 1 "") with
        | none =>
          refine iff_of_false (by simp [Except.isOk, Except.toBool]) ?_
          rintro ⟨-, -, hs, -⟩
          rw [hp] at hs
          simp at hs
        | some pb =>
          cases hc : unmarshal pb with
          | none =>
            refine iff_of_false (by simp [hc, Except.isOk, Except.toBool]) ?_
            rintro ⟨-, -, -, -, -, c, hcc, -⟩
            rw [hp] at hcc
            simp [hc] at hcc
          | some claims =>
            simp only [hc]
            by_cases hsig : (tok.splitOn ".").getD 2 "" =
                rawURLEncode (hmac (jwtSecretFromEnv vars)
                  ((tok.splitOn ".").getD 0 "" ++ "." ++ (tok.splitOn ".").getD 1 ""))
            · rw [if_neg (not_not_intro hsig)]
              by_cases hexp : claims.exp < now
              · rw [if_pos hexp]
                refine iff_of_false (by simp [Except.isOk, Except.toBool]) ?_
                rintro ⟨-, -, -, -, -, c, hcc, hle, -⟩
                rw [hp] at hcc
                simp [hc] at hcc
                subst hcc
                omega
              · rw [if_neg hexp]
                by_cases htype : claims.type = "internal" ∨ claims.type = "user"
                · rw [if_neg (by tauto)]
                  refine iff_of_true (by simp [Except.isOk, Except.toBool]) ?_
                  refine ⟨h3, by rw [hh]; rfl, by rw [hp]; rfl, ?_, hsig, claims,
                    by rw [hp]; simpa using hc, by omega, htype⟩
                  rw [hsig]
                  exact rawURLDecode_rawURLEncode_isSome _
                · rw [if_pos (by tauto)]
                  refine iff_of_false (by simp [Except.isOk, Except.toBool]) ?_
                  rintro ⟨-, -, -, -, -, c, hcc, -, hty⟩
                  rw [hp] at hcc
                  simp [hc] at hcc
                  subst hcc
                  exact htype hty
            · rw [if_pos hsig]
              refine iff_of_false (by simp [Except.isOk, Except.toBool]) ?_
              rintro ⟨-, -, -, -, hs, -⟩
              exact hsig hs
    · rw [if_pos h3]
      refine iff_of_false (by simp [Except.isOk, Except.toBool]) ?_
      rintro ⟨hl, -⟩
      exact h3 hl

/-! Claim C9 — the builder re-applies the defaults. -/

/-- A process environment that overrides the MinIO endpoint. -/
def epVars : String → String := fun k => if k = "MINIO_ENDPOINT" then "other:9000" else ""

/-- C9 counterexample: with the MINIO_ENDPOINT process variable set to a
non-default value, the workload built from the raw object differs from the
workload built from the defaulted object, because the webhook hardcodes
the endpoint default minio:9000 while the builder reads the process
variable. -/
theorem c9_counterexample :
    deploymentForModelServe epVars demoMS ≠ deploymentForModelServe epVars (Default demoMS) := by
  decide

/-- C9 amended: whenever the MINIO_ENDPOINT and MINIO_BUCKET process
variables are unset or equal to the webhook defaults, the workload builder
yields the same deployment with or without admission defaulting, because
it re-applies each remaining default itself. -/
theorem c9_amended_builder_defaults (vars : String → String) (m : ModelServe)
    (hep : getEnvOrDefault vars "MINIO_ENDPOINT" "minio:9000" = "minio:9000")
    (hbk : getEnvOrDefault vars "MINIO_BUCKET" "inference-models" = "inference-models") :
    deploymentForModelServe vars m = deploymentForModelServe vars (Default m) := by
  by_cases h1 : m.spec.replicas = none <;>
  by_cases h2 : m.spec.image = "" <;>
  by_cases h3 : m.spec.minioEndpoint = "" <;>
  by_cases h4 : m.spec.minioBucket = "" <;>
  by_cases h5 : m.spec.memoryLimit = 0 <;>
  by_cases h6 : m.spec.cpuLimit = 0 <;>
  simp [deploymentForModelServe, Default, h1, h2, h3, h4, h5, h6, hep, hbk]

/-- C9 witness: the amended theorem applied at the empty process
environment and a concrete object. -/
theorem c9_amended_builder_defaults_witness :
    deploymentForModelServe noVars demoMS = deploymentForModelServe noVars (Default demoMS) :=
  c9_amended_builder_defaults noVars demoMS (by decide) (by decide)

/-! Claim C2 — the already-exists create race. -/

/-- demoMS after its first status write: phase Pending. -/
def demoMSPending : ModelServe :=
  { demoMS with status := { demoMS.status with phase := "Pending" } }

/-- An environment in which the deployment get reports not-found but the
create is rejected with an already-exists conflict. -/
def conflictEnv : Env :=
  { vars := noVars
    now := 0
    msGet := .found demoMSPending
    statusRes := none
    cmGet := .found (stripPrefixConfigMap demoMSPending)
    cmCreate := none
    depGet := .notFound
    depCreate := some (.alreadyExists "deployments.apps \"demo\" already exists")
    svcGet := .notFound
    svcCreate := none
    ingGet := .notFound
    ingCreate := none
    podList := some [] }

/-- C2 counterexample: when the workload create is rejected because the
object already exists, the reconciler both propagates an error and writes
phase Failed, contradicting the claim that the race is treated as
success. -/
theorem c2_counterexample :
    (Reconcile conflictEnv).err.isSome = true ∧
      writtenPhases (Reconcile conflictEnv) = ["Downloading", "Failed"] := by
  decide

/-- An environment in which the service create is rejected with an
already-exists conflict. -/
def svcConflictEnv : Env :=
  { conflictEnv with
    depGet := .found (deploymentForModelServe noVars demoMSPending)
    depCreate := none
    svcCreate := some (.alreadyExists "services \"demo\" already exists") }

/-- An environment in which the ingress create is rejected with an
already-exists conflict. -/
def ingConflictEnv : Env :=
  { svcConflictEnv with
    svcGet := .found (serviceForModelServe demoMSPending)
    svcCreate := none
    ingCreate := some (.alreadyExists "ingresses \"demo\" already exists") }

/-- An environment in which the strip-prefix config map create is rejected
with an already-exists conflict. -/
def cmConflictEnv : Env :=
  { conflictEnv with
    cmGet := .notFound
    cmCreate := some (.alreadyExists "configmaps \"demo-stripprefix\" already exists")
    depCreate := none }

/-- C2 amended: a child create rejected by the store because the object
already exists is treated like any other create failure: for the workload
the reconciler writes phase Failed and returns the error; for the network
endpoint, the route and the supporting strip-prefix config it returns the
error without writing any status. -/
theorem c2_amended_conflict_propagates :
    (∀ (env : Env) (ms0 : ModelServe) (c : ConfigMap) (ce : CreateErr),
        env.msGet = .found ms0 → ms0.status.phase ≠ "" → env.cmGet = .found c →
        env.depGet = .notFound → env.depCreate = some ce →
        (Reconcile env).err = some ce.msg ∧
          writtenPhases (Reconcile env) = ["Downloading", "Failed"])
    ∧ (∀ (env : Env) (ms0 : ModelServe) (c : ConfigMap) (d : Deployment) (ce : CreateErr),
        env.msGet = .found ms0 → ms0.status.phase ≠ "" → env.cmGet = .found c →
        env.depGet = .found d → env.svcGet = .notFound → env.svcCreate = some ce →
        (Reconcile env).err = some ce.msg ∧ (Reconcile env).statusWrites = [])
    ∧ (∀ (env : Env) (ms0 : ModelServe) (c : ConfigMap) (d : Deployment) (s : Service)
        (ce : CreateErr),
        env.msGet = .found ms0 → ms0.status.phase ≠ "" → env.cmGet = .found c →
        env.depGet = .found d → env.svcGet = .found s → env.ingGet = .notFound →
        env.ingCreate = some ce →
        (Reconcile env).err = some ce.msg ∧ (Reconcile env).statusWrites = [])
    ∧ (∀ (env : Env) (ms0 : ModelServe) (ce : CreateErr),
        env.msGet = .found ms0 → ms0.status.phase ≠ "" → env.cmGet = .notFound →
        env.cmCreate = some ce →
        (Reconcile env).err = some ce.msg ∧ (Reconcile env).statusWrites = []) := by
  refine ⟨?_, ?_, ?_, ?_⟩
  · intro env ms0 c ce hms hph hcm hdep hdc
    simp [Reconcile, hms, hph, createStripPrefixMiddleware, hcm, deploymentStage, hdep, hdc,
      writtenPhases]
  · intro env ms0 c d ce hms hph hcm hdep hsvc hsc
    simp [Reconcile, hms, hph, createStripPrefixMiddleware, hcm, deploymentStage, hdep,
      serviceStage, hsvc, hsc, writtenPhases]
  · intro env ms0 c d s ce hms hph hcm hdep hsvc hig hic
    simp [Reconcile, hms, hph, createStripPrefixMiddleware, hcm, deploymentStage, hdep,
      serviceStage, hsvc, ingressStage, hig, hic, writtenPhases]
  · intro env ms0 ce hms hph hcm hcc
    simp [Reconcile, hms, hph, createStripPrefixMiddleware, hcm, hcc, writtenPhases]

/-- C2 witness: the amended theorem applied, one conjunct each, at the
concrete conflict environments for the workload, the service, the ingress
and the strip-prefix config map. -/
theorem c2_amended_conflict_propagates_witness :
    ((Reconcile conflictEnv).err =
          some (CreateErr.msg (.alreadyExists "deployments.apps \"demo\" already exists")) ∧
        writtenPhases (Reconcile conflictEnv) = ["Downloading", "Failed"]) ∧
      ((Reconcile svcConflictEnv).err =
            some (CreateErr.msg (.alreadyExists "services \"demo\" already exists")) ∧
          (Reconcile svcConflictEnv).statusWrites = []) ∧
        ((Reconcile ingConflictEnv).err =
              some (CreateErr.msg (.alreadyExists "ingresses \"demo\" already exists")) ∧
            (Reconcile ingConflictEnv).statusWrites = []) ∧
          ((Reconcile cmConflictEnv).err =
                some (CreateErr.msg
                  (.alreadyExists "configmaps \"demo-stripprefix\" already exists")) ∧
              (Reconcile cmConflictEnv).statusWrites = []) :=
  ⟨c2_amended_conflict_propagates.1 conflictEnv demoMSPending
      (stripPrefixConfigMap demoMSPending)
      (.alreadyExists "deployments.apps \"demo\" already exists")
      rfl (by decide) rfl rfl rfl,
   c2_amended_conflict_propagates.2.1 svcConflictEnv demoMSPending
      (stripPrefixConfigMap demoMSPending) (deploymentForModelServe noVars demoMSPending)
      (.alreadyExists "services \"demo\" already exists")
      rfl (by decide) rfl rfl rfl rfl,
   c2_amended_conflict_propagates.2.2.1 ingConflictEnv demoMSPending
      (stripPrefixConfigMap demoMSPending) (deploymentForModelServe noVars demoMSPending)
      (serviceForModelServe demoMSPending)
      (.alreadyExists "ingresses \"demo\" already exists")
      rfl (by decide) rfl rfl rfl rfl rfl,
   c2_amended_conflict_propagates.2.2.2 cmConflictEnv demoMSPending
      (.alreadyExists "configmaps \"demo-stripprefix\" already exists")
      rfl (by decide) rfl rfl⟩

/-! Claim C10 — the reconciler writes only status. -/

/-- Every status write issued by the status stage is a prior write or the
given parent with only its status replaced. -/
theorem statusStage_writes_sub (env : Env) (creates : List ChildObj)
    (writes : List ModelServe) (ms : ModelServe) (found : Deployment) (svc : Service) :
    ∀ x ∈ (statusStage env creates writes ms found svc).statusWrites,
      x ∈ writes ∨ ∃ st, x = { ms with status := st } := by
  intro x hx
  simp only [statusStage] at hx
  split at hx
  · simp only [List.mem_append, List.mem_singleton] at hx
    rcases hx with hx | hx
    · exact Or.inl hx
    · exact Or.inr ⟨_, hx⟩
  · exact Or.inl hx

/-- Every status write issued from the ingress stage onward is a prior
write or the parent with only its status replaced. -/
theorem ingressStage_writes_sub (env : Env) (creates : List ChildObj)
    (writes : List ModelServe) (ms : ModelServe) (found : Deployment) (svc : Service) :
    ∀ x ∈ (ingressStage env creates writes ms found svc).statusWrites,
      x ∈ writes ∨ ∃ st, x = { ms with status := st } := by
  intro x hx
  unfold ingressStage at hx
  cases hig : env.ingGet with
  | found i => rw [hig] at hx; exact statusStage_writes_sub env creates writes ms found svc x hx
  | notFound =>
    rw [hig] at hx
    cases hic : env.ingCreate <;> rw [hic] at hx <;> simp at hx <;> exact Or.inl hx
  | err m => rw [hig] at hx; simp at hx; exact Or.inl hx

/-- Every status write issued from the service stage onward is a prior
write or the parent with only its status replaced. -/
theorem serviceStage_writes_sub (env : Env) (creates : List ChildObj)
    (writes : List ModelServe) (ms : ModelServe) (found : Deployment) :
    ∀ x ∈ (serviceStage env creates writes ms found).statusWrites,
      x ∈ writes ∨ ∃ st, x = { ms with status := st } := by
  intro x hx
  unfold serviceStage at hx
  cases hsg : env.svcGet with
  | found s =>
    rw [hsg] at hx
    exact ingressStage_writes_sub env creates writes ms found (serviceForModelServe ms) x hx
  | notFound =>
    rw [hsg] at hx
    cases hsc : env.svcCreate <;> rw [hsc] at hx <;> simp at hx <;> exact Or.inl hx
  | err m => rw [hsg] at hx; simp at hx; exact Or.inl hx

/-- Every status write issued from the deployment stage onward is a prior
write or the parent with only its status replaced. -/
theorem deploymentStage_writes_sub (env : Env) (creates : List ChildObj)
    (writes : List ModelServe) (ms : ModelServe) :
    ∀ x ∈ (deploymentStage env creates writes ms).statusWrites,
      x ∈ writes ∨ ∃ st, x = { ms with status := st } := by
  intro x hx
  unfold deploymentStage at hx
  cases hdg : env.depGet with
  | found d => rw [hdg] at hx; exact serviceStage_writes_sub env creates writes ms d x hx
  | notFound =>
    rw [hdg] at hx
    dsimp only at hx
    cases hdc : env.depCreate with
    | none =>
      rw [hdc] at hx
      simp only [List.mem_append, List.mem_singleton] at hx
      rcases hx with hx | hx
      · exact Or.inl hx
      · exact Or.inr ⟨_, hx⟩
    | some ce =>
      rw [hdc] at hx
      simp only [List.append_assoc, List.mem_append, List.mem_cons,
        List.mem_singleton, List.not_mem_nil, or_false] at hx
      rcases hx with hx | hx | hx
      · exact Or.inl hx
      · exact Or.inr ⟨_, hx⟩
      · exact Or.inr ⟨_, hx⟩
  | err m => rw [hdg] at hx; simp at hx; exact Or.inl hx

/-- Every status write issued from the middleware step onward is a prior
write or the parent with only its status replaced. -/
theorem stepPart_writes_sub (env : Env) (writes : List ModelServe) (ms : ModelServe) :
    ∀ x ∈ (match (createStripPrefixMiddleware env ms).2 with
            | some e =>
              (⟨(createStripPrefixMiddleware env ms).1, writes, false, some e⟩ : Output)
            | none =>
              deploymentStage env (createStripPrefixMiddleware env ms).1 writes ms).statusWrites,
      x ∈ writes ∨ ∃ st, x = { ms with status := st } := by
  intro x hx
  cases hmw : (createStripPrefixMiddleware env ms).2 with
  | none =>
    rw [hmw] at hx
    exact deploymentStage_writes_sub env _ writes ms x hx
  | some e =>
    rw [hmw] at hx
    exact Or.inl hx

/-- C10: the reconciler never modifies the spec or the metadata of the
parent: every object it passes to a status write carries the fetched spec
and metadata unchanged, and status writes are the only writes of the
parent it issues. -/
theorem c10_frame (env : Env) (ms0 : ModelServe) (h : env.msGet = .found ms0) :
    ∀ x ∈ (Reconcile env).statusWrites, x.spec = ms0.spec ∧ x.meta = ms0.meta := by
  intro x hx
  unfold Reconcile at hx
  rw [h] at hx
  dsimp only at hx
  by_cases hph : ms0.status.phase = ""
  · rw [if_pos hph] at hx
    cases hsr : env.statusRes with
    | some e =>
      rw [hsr] at hx
      simp only [List.mem_singleton] at hx
      subst hx
      exact ⟨rfl, rfl⟩
    | none =>
      rw [hsr] at hx
      have hsub := stepPart_writes_sub env _ _ x hx
      rcases hsub with hmem | ⟨st, hst⟩
      · simp only [List.mem_singleton] at hmem
        subst hmem
        exact ⟨rfl, rfl⟩
      · subst hst
        exact ⟨rfl, rfl⟩
  · rw [if_neg hph] at hx
    have hsub := stepPart_writes_sub env _ _ x hx
    rcases hsub with hmem | ⟨st, hst⟩
    · simp at hmem
    · subst hst
      exact ⟨rfl, rfl⟩

/-- C10 witness: the frame theorem applied at the concrete conflict
environment and the concrete Downloading status write it issues. -/
theorem c10_frame_witness :
    (({ demoMSPending with status := stDownloading demoMSPending.status } : ModelServe) ∈
        (Reconcile conflictEnv).statusWrites) ∧
      ({ demoMSPending with status := stDownloading demoMSPending.status } : ModelServe).spec =
          demoMSPending.spec ∧
        ({ demoMSPending with status := stDownloading demoMSPending.status } : ModelServe).meta =
          demoMSPending.meta :=
  ⟨by decide, c10_frame conflictEnv demoMSPending rfl _ (by decide)⟩

/-! Characterisation of the status recomputation block. -/

/-- The pod name the recomputation targets: the first running pod of the
listed pods, the previous name otherwise. -/
def podTarget (podList : Option (List Pod)) (st : ModelServeStatus) : String :=
  match podList with
  | some pods =>
    match pods.find? (fun p => p.phase = "Running") with
    | some pod => pod.name
    | none => st.podName
  | none => st.podName

/-- The stored pod name already agrees with the first running listed
pod. -/
def podCondHolds (podList : Option (List Pod)) (st : ModelServeStatus) : Prop :=
  match podList with
  | some pods =>
    match pods.find? (fun p => p.phase = "Running") with
    | some pod => st.podName = pod.name
    | none => True
  | none => True

/-- The recomputed status always carries the deterministic gateway URL. -/
theorem recomputeStatus_gatewayURL (now : Int) (podList : Option (List Pod))
    (found : Deployment) (svcName msName : String) (st : ModelServeStatus) :
    (recomputeStatus now podList found svcName msName st).1.gatewayURL =
      "http://localhost/" ++ msName := by
  obtain ⟨av, ph, gw, sn, pn, sa, msg⟩ := st
  simp only [recomputeStatus]
  rcases podList with _ | l
  · split_ifs <;> simp_all
  · rcases hf : l.find? (fun p => p.phase = "Running") with _ | pod <;> simp only [hf] <;>
      split_ifs <;> simp_all

/-- The recomputed status always carries the given service name. -/
theorem recomputeStatus_serviceName (now : Int) (podList : Option (List Pod))
    (found : Deployment) (svcName msName : String) (st : ModelServeStatus) :
    (recomputeStatus now podList found svcName msName st).1.serviceName = svcName := by
  obtain ⟨av, ph, gw, sn, pn, sa, msg⟩ := st
  simp only [recomputeStatus]
  rcases podList with _ | l
  · split_ifs <;> simp_all
  · rcases hf : l.find? (fun p => p.phase = "Running") with _ | pod <;> simp only [hf] <;>
      split_ifs <;> simp_all

/-- The recomputed status always mirrors the observed available-replica
count of the workload. -/
theorem recomputeStatus_availableReplicas (now : Int) (podList : Option (List Pod))
    (found : Deployment) (svcName msName : String) (st : ModelServeStatus) :
    (recomputeStatus now podList found svcName msName st).1.availableReplicas =
      found.status.availableReplicas := by
  obtain ⟨av, ph, gw, sn, pn, sa, msg⟩ := st
  simp only [recomputeStatus]
  rcases podList with _ | l
  · split_ifs <;> simp_all
  · rcases hf : l.find? (fun p => p.phase = "Running") with _ | pod <;> simp only [hf] <;>
      split_ifs <;> simp_all

/-- The recomputed phase: Running when the workload is available, the old
phase when it is Downloading or Failed, Pending otherwise. -/
theorem recomputeStatus_phase (now : Int) (podList : Option (List Pod))
    (found : Deployment) (svcName msName : String) (st : ModelServeStatus) :
    (recomputeStatus now podList found svcName msName st).1.phase =
      (if 0 < found.status.availableReplicas then "Running"
       else if st.phase = "Downloading" ∨ st.phase = "Failed" then st.phase
       else "Pending") := by
  obtain ⟨av, ph, gw, sn, pn, sa, msg⟩ := st
  simp only [recomputeStatus]
  rcases podList with _ | l
  · split_ifs <;> simp_all
  · rcases hf : l.find? (fun p => p.phase = "Running") with _ | pod <;> simp only [hf] <;>
      split_ifs <;> simp_all

/-- The recomputed startedAt: stamped with the current time exactly on a
transition into Running, untouched otherwise. -/
theorem recomputeStatus_startedAt (now : Int) (podList : Option (List Pod))
    (found : Deployment) (svcName msName : String) (st : ModelServeStatus) :
    (recomputeStatus now podList found svcName msName st).1.startedAt =
      (if 0 < found.status.availableReplicas ∧ st.phase ≠ "Running" then some now
       else st.startedAt) := by
  obtain ⟨av, ph, gw, sn, pn, sa, msg⟩ := st
  simp only [recomputeStatus]
  rcases podList with _ | l
  · split_ifs <;> simp_all
  · rcases hf : l.find? (fun p => p.phase = "Running") with _ | pod <;> simp only [hf] <;>
      split_ifs <;> simp_all

/-- The recomputed pod name when the workload is available. -/
theorem recomputeStatus_podName (now : Int) (podList : Option (List Pod))
    (found : Deployment) (svcName msName : String) (st : ModelServeStatus)
    (hav : 0 < found.status.availableReplicas) :
    (recomputeStatus now podList found svcName msName st).1.podName =
      podTarget podList st := by
  obtain ⟨av, ph, gw, sn, pn, sa, msg⟩ := st
  simp only [recomputeStatus, podTarget]
  rcases podList with _ | l
  · split_ifs <;> simp_all
  · rcases hf : l.find? (fun p => p.phase = "Running") with _ | pod <;> simp only [hf] <;>
      split_ifs <;> simp_all

/-- A transition into Running always flags a status write. -/
theorem recomputeStatus_flag_of_transition (now : Int) (podList : Option (List Pod))
    (found : Deployment) (svcName msName : String) (st : ModelServeStatus)
    (hav : 0 < found.status.availableReplicas) (hph : st.phase ≠ "Running") :
    (recomputeStatus now podList found svcName msName st).2 = true := by
  obtain ⟨av, ph, gw, sn, pn, sa, msg⟩ := st
  simp only [recomputeStatus]
  rcases podList with _ | l
  · split_ifs <;> simp_all
  · rcases hf : l.find? (fun p => p.phase = "Running") with _ | pod <;> simp only [hf] <;>
      split_ifs <;> simp_all

/-- When no status write is flagged, the status is unchanged and already
agrees with everything the recomputation would write. -/
theorem recomputeStatus_no_update (now : Int) (podList : Option (List Pod))
    (found : Deployment) (svcName msName : String) (st : ModelServeStatus)
    (hflag : (recomputeStatus now podList found svcName msName st).2 = false) :
    (recomputeStatus now podList found svcName msName st).1 = st ∧
      st.availableReplicas = found.status.availableReplicas ∧
      st.serviceName = svcName ∧
      st.gatewayURL = "http://localhost/" ++ msName ∧
      (0 < found.status.availableReplicas → st.phase = "Running" ∧ podCondHolds podList st) ∧
      (¬ 0 < found.status.availableReplicas →
        st.phase = "Downloading" ∨ st.phase = "Failed") := by
  obtain ⟨av, ph, gw, sn, pn, sa, msg⟩ := st
  simp only [recomputeStatus] at hflag ⊢
  simp only [podCondHolds]
  rcases podList with _ | l
  · split_ifs at hflag ⊢ <;> simp_all <;> tauto
  · rcases hf : l.find? (fun p => p.phase = "Running") with _ | pod <;>
      simp only [hf] at hflag ⊢ <;> split_ifs at hflag ⊢ <;> simp_all <;> tauto

/-- When the stored status already agrees with the recomputation under an
available workload, no status write is flagged. -/
theorem recomputeStatus_stable (now : Int) (podList : Option (List Pod))
    (found : Deployment) (svcName msName : String) (st : ModelServeStatus)
    (h1 : st.availableReplicas = found.status.availableReplicas)
    (h2 : st.serviceName = svcName)
    (h3 : st.gatewayURL = "http://localhost/" ++ msName)
    (hav : 0 < found.status.availableReplicas)
    (hph : st.phase = "Running")
    (hpod : podCondHolds podList st) :
    (recomputeStatus now podList found svcName msName st).2 = false := by
  obtain ⟨av, ph, gw, sn, pn, sa, msg⟩ := st
  simp only [recomputeStatus]
  simp only [podCondHolds] at hpod
  rcases podList with _ | l
  · split_ifs <;> simp_all
  · rcases hf : l.find? (fun p => p.phase = "Running") with _ | pod <;>
      simp only [hf] at hpod ⊢ <;> split_ifs <;> simp_all

/-- When the stored status already agrees with the recomputation under an
unavailable workload whose phase is Downloading or Failed, no status write
is flagged. -/
theorem recomputeStatus_stable_low (now : Int) (podList : Option (List Pod))
    (found : Deployment) (svcName msName : String) (st : ModelServeStatus)
    (h1 : st.availableReplicas = found.status.availableReplicas)
    (h2 : st.serviceName = svcName)
    (h3 : st.gatewayURL = "http://localhost/" ++ msName)
    (hav : ¬ 0 < found.status.availableReplicas)
    (hph : st.phase = "Downloading" ∨ st.phase = "Failed") :
    (recomputeStatus now podList found svcName msName st).2 = false := by
  obtain ⟨av, ph, gw, sn, pn, sa, msg⟩ := st
  simp only [recomputeStatus]
  rcases podList with _ | l
  · split_ifs <;> simp_all
  · rcases hf : l.find? (fun p => p.phase = "Running") with _ | pod <;>
      simp only [hf] <;> split_ifs <;> simp_all

/-! Execution equations for one honest-store invocation, per store
shape. -/


/-- A fresh invocation: parent present with unset phase and no children
yet.  The invocation writes Pending then Downloading, creates the config
map and the deployment, and requeues. -/
theorem runStep_fresh (vars : String → String) (t : Int) (w : World) (ms : ModelServe)
    (hms : w.ms = some ms) (hph : ms.status.phase = "")
    (hcm : w.cm = none) (hdep : w.dep = none) :
    runStep vars t w =
      ({ w with cm := some (stripPrefixConfigMap ms),
                dep := some (deploymentForModelServe vars ms),
                ms := some { ms with status := stDownloading (stPending ms.status) } },
       ⟨[.cm (stripPrefixConfigMap ms), .dep (deploymentForModelServe vars ms)],
        [{ ms with status := stPending ms.status },
         { ms with status := stDownloading (stPending ms.status) }],
        true, none⟩) := by
  obtain ⟨wms, wcm, wdep, wsvc, wing, wpods⟩ := w
  simp only at hms hcm hdep
  subst hms hcm hdep
  simp only [runStep, envOf, getResOf, Reconcile, createStripPrefixMiddleware,
    deploymentStage, applyOutput, applyCreate, hph, if_pos, List.foldl, List.getLast?]
  rfl

/-- An invocation that finds the config map and the deployment but not the
service: it creates the service and requeues, with no status write. -/
theorem runStep_createService (vars : String → String) (t : Int) (w : World)
    (ms : ModelServe) (c : ConfigMap) (d : Deployment)
    (hms : w.ms = some ms) (hph : ms.status.phase ≠ "")
    (hcm : w.cm = some c) (hdep : w.dep = some d) (hsvc : w.svc = none) :
    runStep vars t w =
      ({ w with svc := some (serviceForModelServe ms) },
       ⟨[.svc (serviceForModelServe ms)], [], true, none⟩) := by
  obtain ⟨wms, wcm, wdep, wsvc, wing, wpods⟩ := w
  simp only at hms hcm hdep hsvc
  subst hms hcm hdep hsvc
  simp only [runStep, envOf, getResOf, Reconcile, createStripPrefixMiddleware,
    deploymentStage, serviceStage, applyOutput, applyCreate, if_neg hph,
    List.foldl, List.getLast?]
  rfl

/-- An invocation that finds the config map, the deployment and the
service but not the ingress: it creates the ingress and requeues, with no
status write. -/
theorem runStep_createIngress (vars : String → String) (t : Int) (w : World)
    (ms : ModelServe) (c : ConfigMap) (d : Deployment) (s : Service)
    (hms : w.ms = some ms) (hph : ms.status.phase ≠ "")
    (hcm : w.cm = some c) (hdep : w.dep = some d) (hsvc : w.svc = some s)
    (hing : w.ing = none) :
    runStep vars t w =
      ({ w with ing := some (ingressForModelServe ms) },
       ⟨[.ing (ingressForModelServe ms)], [], true, none⟩) := by
  obtain ⟨wms, wcm, wdep, wsvc, wing, wpods⟩ := w
  simp only at hms hcm hdep hsvc hing
  subst hms hcm hdep hsvc hing
  simp only [runStep, envOf, getResOf, Reconcile, createStripPrefixMiddleware,
    deploymentStage, serviceStage, ingressStage, applyOutput, applyCreate, if_neg hph,
    List.foldl, List.getLast?]
  rfl

/-- An invocation with every child present: no creates, no requeue, no
error; the status is recomputed over the (possibly just initialised)
status and written only when flagged. -/
theorem runStep_children (vars : String → String) (t : Int) (w : World)
    (ms : ModelServe) (c : ConfigMap) (d : Deployment) (s : Service) (i : Ingress)
    (hms : w.ms = some ms) (hcm : w.cm = some c) (hdep : w.dep = some d)
    (hsvc : w.svc = some s) (hing : w.ing = some i) :
    runStep vars t w =
      (let st1 := if ms.status.phase = "" then stPending ms.status else ms.status
       let r := recomputeStatus t (some w.pods) d ms.meta.name ms.meta.name st1
       ({ w with ms := some { ms with status := if r.2 then r.1 else st1 } },
        ⟨[],
         (if ms.status.phase = "" then [{ ms with status := stPending ms.status }] else []) ++
           (if r.2 then [{ ms with status := r.1 }] else []),
         false, none⟩)) := by
  obtain ⟨wms, wcm, wdep, wsvc, wing, wpods⟩ := w
  simp only at hms hcm hdep hsvc hing
  subst hms hcm hdep hsvc hing
  by_cases hph : ms.status.phase = ""
  · simp only [runStep, envOf, getResOf, Reconcile, createStripPrefixMiddleware,
      deploymentStage, serviceStage, ingressStage, statusStage, serviceForModelServe,
      stPending, applyOutput, applyCreate, hph, if_pos, if_true]
    split_ifs with hflag <;> simp [List.foldl, List.getLast?] <;> rfl
  · simp only [runStep, envOf, getResOf, Reconcile, createStripPrefixMiddleware,
      deploymentStage, serviceStage, ingressStage, statusStage, serviceForModelServe,
      stPending, applyOutput, applyCreate, hph, if_neg, if_false]
    split_ifs with hflag <;> simp [List.foldl, List.getLast?] <;> rfl

/-- A status whose pod name matches the pod target satisfies the pod
condition. -/
theorem podCondHolds_of_podTarget (podList : Option (List Pod)) (st0 st' : ModelServeStatus)
    (h : st'.podName = podTarget podList st0) : podCondHolds podList st' := by
  unfold podCondHolds
  unfold podTarget at h
  rcases podList with _ | l
  · trivial
  · rcases hf : l.find? (fun p => p.phase = "Running") with _ | pod <;>
      simp only [hf] at h ⊢ <;> first | trivial | exact h

/-! Concrete worlds used by witnesses and counterexamples. -/

/-- demoMS with phase Downloading (the state after the deployment was
created). -/
def demoMSDownloading : ModelServe :=
  { demoMS with status := { demoMS.status with phase := "Downloading" } }

/-- A world in which every child of demo exists and the workload reports
no available replica yet. -/
def demoAllChildren : World :=
  { ms := some demoMSDownloading
    cm := some (stripPrefixConfigMap demoMS)
    dep := some (deploymentForModelServe noVars demoMS)
    svc := some (serviceForModelServe demoMS)
    ing := some (ingressForModelServe demoMS)
    pods := [] }

/-- The demo deployment as observed with one available replica. -/
def demoDepReady : Deployment :=
  { deploymentForModelServe noVars demoMS with status := { availableReplicas := 1 } }

/-- demoAllChildren with the workload reporting one available replica. -/
def demoAllChildrenReady : World := { demoAllChildren with dep := some demoDepReady }

/-- A fully converged demo parent stuck waiting: phase Pending, mirrored
fields already written, workload not available. -/
def demoMSPendingWaiting : ModelServe :=
  { demoMS with status :=
    { availableReplicas := 0, phase := "Pending", gatewayURL := "http://localhost/demo",
      serviceName := "demo", podName := "", startedAt := none,
      message := "Waiting for pod to be ready" } }

/-- The converged waiting world: every child exists, the workload reports
no available replica, the status is fully synchronised. -/
def pendingWorld : World :=
  { demoAllChildren with ms := some demoMSPendingWaiting }

/-! Claim C8 — the gateway URL. -/

/-- Modelled from the spec: the claimed gateway URL format
http(s)://gateway-host/parent-name/ with a trailing slash. -/
def specGatewayURL (host name : String) : String :=
  "http://" ++ host ++ "/" ++ name ++ "/"

/-- C8 counterexample: the reconciler records gatewayURL
http://localhost/demo — without the trailing slash of the claimed format —
and records it in a status write whose phase is Downloading, before the
workload is observed ready. -/
theorem c8_counterexample :
    ((runStep noVars 0 demoAllChildren).2.statusWrites.map
        (fun m => (m.status.gatewayURL, m.status.phase))) =
      [("http://localhost/demo", "Downloading")] ∧
      "http://localhost/demo" ≠ specGatewayURL "localhost" "demo" := by
  decide

/-- C8 amended: once all children exist, every reconcile invocation leaves
status.gatewayURL equal to the deterministic function
http://localhost/parent-name (no trailing slash), whether or not the
workload is ready. -/
theorem c8_amended_gateway_url (vars : String → String) (t : Int) (w : World)
    (ms : ModelServe) (c : ConfigMap) (d : Deployment) (s : Service) (i : Ingress)
    (hms : w.ms = some ms) (hcm : w.cm = some c) (hdep : w.dep = some d)
    (hsvc : w.svc = some s) (hing : w.ing = some i) :
    ∃ ms1, (runStep vars t w).1.ms = some ms1 ∧
      ms1.status.gatewayURL = "http://localhost/" ++ ms.meta.name := by
  rw [runStep_children vars t w ms c d s i hms hcm hdep hsvc hing]
  dsimp only
  set st1 := if ms.status.phase = "" then stPending ms.status else ms.status with hst1
  set r := recomputeStatus t (some w.pods) d ms.meta.name ms.meta.name st1 with hr
  refine ⟨_, rfl, ?_⟩
  show (if r.2 then r.1 else st1).gatewayURL = "http://localhost/" ++ ms.meta.name
  by_cases hflag : r.2 = true
  · rw [if_pos hflag, hr]
    exact recomputeStatus_gatewayURL _ _ _ _ _ _
  · rw [if_neg hflag]
    have hflag' :
        (recomputeStatus t (some w.pods) d ms.meta.name ms.meta.name st1).2 = false := by
      rw [← hr]
      simpa using hflag
    exact (recomputeStatus_no_update t (some w.pods) d ms.meta.name ms.meta.name st1
      hflag').2.2.2.1

/-- C8 witness: the amended theorem applied at the concrete converged
world. -/
theorem c8_amended_gateway_url_witness :
    ∃ ms1, (runStep noVars 0 demoAllChildren).1.ms = some ms1 ∧
      ms1.status.gatewayURL = "http://localhost/" ++ demoMSDownloading.meta.name :=
  c8_amended_gateway_url noVars 0 demoAllChildren demoMSDownloading
    (stripPrefixConfigMap demoMS) (deploymentForModelServe noVars demoMS)
    (serviceForModelServe demoMS) (ingressForModelServe demoMS) rfl rfl rfl rfl rfl

/-! Claim C5 — startedAt. -/

/-- A demo parent already Running with startedAt stamped at time 5. -/
def runningMSC5 : ModelServe :=
  { demoMS with status :=
    { demoMS.status with phase := "Running", startedAt := some 5 } }

/-- The ready world with a Running parent. -/
def runningWorldC5 : World := { demoAllChildrenReady with ms := some runningMSC5 }

/-- C5 counterexample: startedAt is stamped at time 5 on the first
transition into Running, and after the workload dips to zero replicas and
recovers, a later invocation overwrites it with time 7. -/
theorem c5_counterexample :
    ((runTrace noVars demoAllChildren [(1, 5)]).1.ms.map (fun m => m.status.startedAt)) =
        some (some 5) ∧
      ((runTrace noVars demoAllChildren [(1, 5), (0, 6), (1, 7)]).1.ms.map
          (fun m => m.status.startedAt)) = some (some 7) ∧
      (some (7 : Int) : Option Int) ≠ some 5 := by
  decide

/-- C5 amended: while phase stays Running with an available workload,
startedAt is never rewritten; but it is stamped with the current time on
every transition into Running, not only the first, so a workload that
becomes unavailable and recovers gets a fresh startedAt. -/
theorem c5_amended_startedAt :
    (∀ (vars : String → String) (t : Int) (w : World) (ms : ModelServe)
        (c : ConfigMap) (d : Deployment) (s : Service) (i : Ingress),
        w.ms = some ms → w.cm = some c → w.dep = some d → w.svc = some s → w.ing = some i →
        ms.status.phase = "Running" → 0 < d.status.availableReplicas →
        ∃ ms1, (runStep vars t w).1.ms = some ms1 ∧
          ms1.status.startedAt = ms.status.startedAt)
    ∧ (∀ (vars : String → String) (t : Int) (w : World) (ms : ModelServe)
        (c : ConfigMap) (d : Deployment) (s : Service) (i : Ingress),
        w.ms = some ms → w.cm = some c → w.dep = some d → w.svc = some s → w.ing = some i →
        ms.status.phase ≠ "Running" → 0 < d.status.availableReplicas →
        ∃ ms1, (runStep vars t w).1.ms = some ms1 ∧
          ms1.status.startedAt = some t) := by
  constructor
  · intro vars t w ms c d s i hms hcm hdep hsvc hing hph hav
    rw [runStep_children vars t w ms c d s i hms hcm hdep hsvc hing]
    dsimp only
    have hph' : ms.status.phase ≠ "" := by rw [hph]; decide
    rw [if_neg hph']
    set r := recomputeStatus t (some w.pods) d ms.meta.name ms.meta.name ms.status with hr
    refine ⟨_, rfl, ?_⟩
    show (if r.2 then r.1 else ms.status).startedAt = ms.status.startedAt
    by_cases hflag : r.2 = true
    · rw [if_pos hflag, hr, recomputeStatus_startedAt, if_neg (by simp [hph])]
    · rw [if_neg hflag]
  · intro vars t w ms c d s i hms hcm hdep hsvc hing hph hav
    rw [runStep_children vars t w ms c d s i hms hcm hdep hsvc hing]
    dsimp only
    set st1 := if ms.status.phase = "" then stPending ms.status else ms.status with hst1
    have hph1 : st1.phase ≠ "Running" := by
      rw [hst1]
      split_ifs with h0
      · simp [stPending]
      · exact hph
    set r := recomputeStatus t (some w.pods) d ms.meta.name ms.meta.name st1 with hr
    have hflag : r.2 = true := by
      rw [hr]
      exact recomputeStatus_flag_of_transition _ _ _ _ _ _ hav hph1
    refine ⟨_, rfl, ?_⟩
    show (if r.2 then r.1 else st1).startedAt = some t
    rw [if_pos hflag, hr, recomputeStatus_startedAt, if_pos ⟨hav, hph1⟩]

/-- C5 witness: the amended theorem applied at concrete worlds (a Running
parent keeps its startedAt; a Downloading parent that becomes available is
stamped with the invocation time). -/
theorem c5_amended_startedAt_witness :
    (∃ ms1, (runStep noVars 9 runningWorldC5).1.ms = some ms1 ∧
        ms1.status.startedAt = runningMSC5.status.startedAt) ∧
      ∃ ms1, (runStep noVars 9 demoAllChildrenReady).1.ms = some ms1 ∧
        ms1.status.startedAt = some 9 :=
  ⟨c5_amended_startedAt.1 noVars 9 runningWorldC5 runningMSC5
      (stripPrefixConfigMap demoMS) demoDepReady (serviceForModelServe demoMS)
      (ingressForModelServe demoMS) rfl rfl rfl rfl rfl rfl (by decide),
   c5_amended_startedAt.2 noVars 9 demoAllChildrenReady demoMSDownloading
      (stripPrefixConfigMap demoMS) demoDepReady (serviceForModelServe demoMS)
      (ingressForModelServe demoMS) rfl rfl rfl rfl rfl (by decide) (by decide)⟩

/-! Claim C3 — idempotence of a second run. -/

set_option maxRecDepth 4000

/-- C3 counterexample: in the converged waiting world (phase Pending, all
fields synchronised, workload unavailable) the reconciler issues a status
write on every invocation — the second run writes status although nothing
changed, and the store is a fixed point. -/
theorem c3_counterexample :
    (runStep noVars 1 pendingWorld).1 = pendingWorld ∧
      (runStep noVars 2 (runStep noVars 1 pendingWorld).1).2.statusWrites.length = 1 ∧
      (runStep noVars 2 (runStep noVars 1 pendingWorld).1).1 = pendingWorld := by
  decide

/-- C3 amended: when all children exist and either the workload is
available or the stored phase is Downloading or Failed, a second reconcile
run with no intervening external change performs no child create and no
status write; only a converged object with no available replica and a
phase outside Downloading/Failed (the Pending fixed point of the
counterexample) is rewritten every run. -/
theorem c3_amended_second_run (vars : String → String) (t1 t2 : Int) (w : World)
    (ms : ModelServe) (c : ConfigMap) (d : Deployment) (s : Service) (i : Ingress)
    (hms : w.ms = some ms) (hcm : w.cm = some c) (hdep : w.dep = some d)
    (hsvc : w.svc = some s) (hing : w.ing = some i)
    (hcond : 0 < d.status.availableReplicas ∨
      ms.status.phase = "Downloading" ∨ ms.status.phase = "Failed") :
    (runStep vars t2 (runStep vars t1 w).1).2.creates = [] ∧
      (runStep vars t2 (runStep vars t1 w).1).2.statusWrites = [] := by
  rw [runStep_children vars t1 w ms c d s i hms hcm hdep hsvc hing]
  dsimp only
  set st1 := if ms.status.phase = "" then stPending ms.status else ms.status with hst1
  set r := recomputeStatus t1 (some w.pods) d ms.meta.name ms.meta.name st1 with hr
  set S := if r.2 then r.1 else st1 with hSdef
  by_cases hav : 0 < d.status.availableReplicas
  · have hfacts : S.phase = "Running" ∧ S.availableReplicas = d.status.availableReplicas ∧
        S.serviceName = ms.meta.name ∧ S.gatewayURL = "http://localhost/" ++ ms.meta.name ∧
        podCondHolds (some w.pods) S := by
      rw [hSdef]
      by_cases hflag : r.2 = true
      · rw [if_pos hflag, hr]
        refine ⟨?_, recomputeStatus_availableReplicas _ _ _ _ _ _,
          recomputeStatus_serviceName _ _ _ _ _ _, recomputeStatus_gatewayURL _ _ _ _ _ _, ?_⟩
        · rw [recomputeStatus_phase, if_pos hav]
        · exact podCondHolds_of_podTarget (some w.pods) _ _
            (recomputeStatus_podName _ _ _ _ _ _ hav)
      · rw [if_neg hflag]
        have hflag' :
            (recomputeStatus t1 (some w.pods) d ms.meta.name ms.meta.name st1).2 = false := by
          rw [← hr]
          simpa using hflag
        have hnu := recomputeStatus_no_update t1 (some w.pods) d ms.meta.name ms.meta.name st1
          hflag'
        exact ⟨(hnu.2.2.2.2.1 hav).1, hnu.2.1, hnu.2.2.1, hnu.2.2.2.1, (hnu.2.2.2.2.1 hav).2⟩
    obtain ⟨hph, havl, hsn, hgw, hpc⟩ := hfacts
    rw [runStep_children vars t2 { w with ms := some { ms with status := S } }
      { ms with status := S } c d s i rfl hcm hdep hsvc hing]
    dsimp only
    constructor
    · rfl
    · have hstable := recomputeStatus_stable t2 (some w.pods) d ms.meta.name ms.meta.name S
        havl hsn hgw hav hph hpc
      simp only [hph]
      rw [if_neg (by decide : ¬ (("Running" : String) = ""))]
      simp [hph, hstable]
  · have hph0 : ms.status.phase = "Downloading" ∨ ms.status.phase = "Failed" :=
      hcond.resolve_left hav
    have hphne : ms.status.phase ≠ "" := by
      rcases hph0 with h | h <;> rw [h] <;> decide
    have hst1eq : st1 = ms.status := by rw [hst1, if_neg hphne]
    have hfacts : (S.phase = "Downloading" ∨ S.phase = "Failed") ∧
        S.availableReplicas = d.status.availableReplicas ∧
        S.serviceName = ms.meta.name ∧ S.gatewayURL = "http://localhost/" ++ ms.meta.name := by
      rw [hSdef]
      by_cases hflag : r.2 = true
      · rw [if_pos hflag, hr]
        refine ⟨?_, recomputeStatus_availableReplicas _ _ _ _ _ _,
          recomputeStatus_serviceName _ _ _ _ _ _, recomputeStatus_gatewayURL _ _ _ _ _ _⟩
        have hpheq :
            (recomputeStatus t1 (some w.pods) d ms.meta.name ms.meta.name st1).1.phase =
              ms.status.phase := by
          rw [recomputeStatus_phase, if_neg hav, hst1eq, if_pos hph0]
        rw [hpheq]
        exact hph0
      · rw [if_neg hflag]
        have hflag' :
            (recomputeStatus t1 (some w.pods) d ms.meta.name ms.meta.name st1).2 = false := by
          rw [← hr]
          simpa using hflag
        have hnu := recomputeStatus_no_update t1 (some w.pods) d ms.meta.name ms.meta.name st1
          hflag'
        exact ⟨hnu.2.2.2.2.2 hav, hnu.2.1, hnu.2.2.1, hnu.2.2.2.1⟩
    obtain ⟨hph, havl, hsn, hgw⟩ := hfacts
    rw [runStep_children vars t2 { w with ms := some { ms with status := S } }
      { ms with status := S } c d s i rfl hcm hdep hsvc hing]
    dsimp only
    constructor
    · rfl
    · have hstable := recomputeStatus_stable_low t2 (some w.pods) d ms.meta.name ms.meta.name S
        havl hsn hgw hav hph
      have hSphne : S.phase ≠ "" := by
        rcases hph with h | h <;> rw [h] <;> decide
      simp only [if_neg hSphne]
      simp [hstable]

/-- C3 witness: the amended theorem applied at the concrete ready world
(workload available) and at the concrete all-children world whose phase is
Downloading with no available replica. -/
theorem c3_amended_second_run_witness :
    ((runStep noVars 2 (runStep noVars 1 demoAllChildrenReady).1).2.creates = [] ∧
        (runStep noVars 2 (runStep noVars 1 demoAllChildrenReady).1).2.statusWrites = []) ∧
      ((runStep noVars 2 (runStep noVars 1 demoAllChildren).1).2.creates = [] ∧
        (runStep noVars 2 (runStep noVars 1 demoAllChildren).1).2.statusWrites = []) :=
  ⟨c3_amended_second_run noVars 1 2 demoAllChildrenReady demoMSDownloading
      (stripPrefixConfigMap demoMS) demoDepReady (serviceForModelServe demoMS)
      (ingressForModelServe demoMS) rfl rfl rfl rfl rfl (Or.inl (by decide)),
   c3_amended_second_run noVars 1 2 demoAllChildren demoMSDownloading
      (stripPrefixConfigMap demoMS) (deploymentForModelServe noVars demoMS)
      (serviceForModelServe demoMS) (ingressForModelServe demoMS)
      rfl rfl rfl rfl rfl (Or.inr (Or.inl (by decide)))⟩

/-! Claim C6 — phase monotonicity of a fresh object. -/

/-- Reachable state after the first invocation of a fresh object: config
map and deployment exist, service and ingress do not, phase is
Downloading. -/
def InvB1 (w : World) : Prop :=
  ∃ ms c d, w.ms = some ms ∧ ms.status.phase = "Downloading" ∧ w.cm = some c ∧
    w.dep = some d ∧ w.svc = none ∧ w.ing = none

/-- Reachable state after the service was created: only the ingress is
missing, phase is Downloading. -/
def InvB2 (w : World) : Prop :=
  ∃ ms c d s, w.ms = some ms ∧ ms.status.phase = "Downloading" ∧ w.cm = some c ∧
    w.dep = some d ∧ w.svc = some s ∧ w.ing = none

/-- Reachable state with all children present and phase Downloading. -/
def InvB3 (w : World) : Prop :=
  ∃ ms c d s i, w.ms = some ms ∧ ms.status.phase = "Downloading" ∧ w.cm = some c ∧
    w.dep = some d ∧ w.svc = some s ∧ w.ing = some i

/-- Reachable state with all children present and phase Running. -/
def InvC (w : World) : Prop :=
  ∃ ms c d s i, w.ms = some ms ∧ ms.status.phase = "Running" ∧ w.cm = some c ∧
    w.dep = some d ∧ w.svc = some s ∧ w.ing = some i

/-- A B1 invocation writes no status and moves to B2. -/
theorem stepB1 (vars : String → String) (a t : Int) (w : World) (h : InvB1 w) :
    writtenPhases (runStep vars t (setAvail w a)).2 = [] ∧
      InvB2 (runStep vars t (setAvail w a)).1 := by
  obtain ⟨ms, c, d, hms, hph, hcm, hdep, hsvc, hing⟩ := h
  have hdep' : (setAvail w a).dep = some { d with status := ⟨a⟩ } := by
    simp [setAvail, hdep]
  have hph' : ms.status.phase ≠ "" := by rw [hph]; decide
  rw [runStep_createService vars t (setAvail w a) ms c _ hms hph' hcm hdep' hsvc]
  exact ⟨rfl, ms, c, _, serviceForModelServe ms, hms, hph, hcm, hdep', rfl, hing⟩

/-- A B2 invocation writes no status and moves to B3. -/
theorem stepB2 (vars : String → String) (a t : Int) (w : World) (h : InvB2 w) :
    writtenPhases (runStep vars t (setAvail w a)).2 = [] ∧
      InvB3 (runStep vars t (setAvail w a)).1 := by
  obtain ⟨ms, c, d, s, hms, hph, hcm, hdep, hsvc, hing⟩ := h
  have hdep' : (setAvail w a).dep = some { d with status := ⟨a⟩ } := by
    simp [setAvail, hdep]
  have hph' : ms.status.phase ≠ "" := by rw [hph]; decide
  rw [runStep_createIngress vars t (setAvail w a) ms c _ s hms hph' hcm hdep' hsvc hing]
  exact ⟨rfl, ms, c, _, s, ingressForModelServe ms, hms, hph, hcm, hdep', hsvc, rfl⟩

/-- A B3 invocation with an unavailable workload writes at most a
Downloading status and stays in B3. -/
theorem stepB3_low (vars : String → String) (a t : Int) (w : World) (h : InvB3 w)
    (ha : ¬ 0 < a) :
    (writtenPhases (runStep vars t (setAvail w a)).2 = [] ∨
      writtenPhases (runStep vars t (setAvail w a)).2 = ["Downloading"]) ∧
      InvB3 (runStep vars t (setAvail w a)).1 := by
  obtain ⟨ms, c, d, s, i, hms, hph, hcm, hdep, hsvc, hing⟩ := h
  have hdep' : (setAvail w a).dep = some { d with status := ⟨a⟩ } := by
    simp [setAvail, hdep]
  have hph' : ms.status.phase ≠ "" := by rw [hph]; decide
  rw [runStep_children vars t (setAvail w a) ms c _ s i hms hcm hdep' hsvc hing]
  dsimp only
  simp only [if_neg hph']
  set r := recomputeStatus t (some (setAvail w a).pods) { d with status := ⟨a⟩ }
    ms.meta.name ms.meta.name ms.status with hr
  have hphase : r.1.phase = "Downloading" := by
    rw [hr, recomputeStatus_phase, if_neg ha, if_pos (Or.inl hph), hph]
  constructor
  · by_cases hflag : r.2 = true
    · right
      simp [writtenPhases, hflag, hphase]
    · left
      simp [writtenPhases, hflag]
  · by_cases hflag : r.2 = true
    · exact ⟨_, c, _, s, i, rfl, by rw [if_pos hflag]; exact hphase, hcm, hdep', hsvc, hing⟩
    · exact ⟨_, c, _, s, i, rfl, by rw [if_neg hflag]; exact hph, hcm, hdep', hsvc, hing⟩

/-- A B3 invocation with an available workload writes exactly a Running
status and moves to C. -/
theorem stepB3_high (vars : String → String) (a t : Int) (w : World) (h : InvB3 w)
    (ha : 0 < a) :
    writtenPhases (runStep vars t (setAvail w a)).2 = ["Running"] ∧
      InvC (runStep vars t (setAvail w a)).1 := by
  obtain ⟨ms, c, d, s, i, hms, hph, hcm, hdep, hsvc, hing⟩ := h
  have hdep' : (setAvail w a).dep = some { d with status := ⟨a⟩ } := by
    simp [setAvail, hdep]
  have hph' : ms.status.phase ≠ "" := by rw [hph]; decide
  rw [runStep_children vars t (setAvail w a) ms c _ s i hms hcm hdep' hsvc hing]
  dsimp only
  simp only [if_neg hph']
  set r := recomputeStatus t (some (setAvail w a).pods) { d with status := ⟨a⟩ }
    ms.meta.name ms.meta.name ms.status with hr
  have hflag : r.2 = true := by
    rw [hr]
    exact recomputeStatus_flag_of_transition _ _ _ _ _ _ ha (by rw [hph]; decide)
  have hphase : r.1.phase = "Running" := by
    rw [hr, recomputeStatus_phase, if_pos ha]
  constructor
  · simp [writtenPhases, hflag, hphase]
  · exact ⟨_, c, _, s, i, rfl, by rw [if_pos hflag]; exact hphase, hcm, hdep', hsvc, hing⟩

/-- A C invocation with an available workload writes at most a Running
status and stays in C. -/
theorem stepC_high (vars : String → String) (a t : Int) (w : World) (h : InvC w)
    (ha : 0 < a) :
    (writtenPhases (runStep vars t (setAvail w a)).2 = [] ∨
      writtenPhases (runStep vars t (setAvail w a)).2 = ["Running"]) ∧
      InvC (runStep vars t (setAvail w a)).1 := by
  obtain ⟨ms, c, d, s, i, hms, hph, hcm, hdep, hsvc, hing⟩ := h
  have hdep' : (setAvail w a).dep = some { d with status := ⟨a⟩ } := by
    simp [setAvail, hdep]
  have hph' : ms.status.phase ≠ "" := by rw [hph]; decide
  rw [runStep_children vars t (setAvail w a) ms c _ s i hms hcm hdep' hsvc hing]
  dsimp only
  simp only [if_neg hph']
  set r := recomputeStatus t (some (setAvail w a).pods) { d with status := ⟨a⟩ }
    ms.meta.name ms.meta.name ms.status with hr
  have hphase : r.1.phase = "Running" := by
    rw [hr, recomputeStatus_phase, if_pos ha]
  constructor
  · by_cases hflag : r.2 = true
    · right
      simp [writtenPhases, hflag, hphase]
    · left
      simp [writtenPhases, hflag]
  · by_cases hflag : r.2 = true
    · exact ⟨_, c, _, s, i, rfl, by rw [if_pos hflag]; exact hphase, hcm, hdep', hsvc, hing⟩
    · exact ⟨_, c, _, s, i, rfl, by rw [if_neg hflag]; exact hph, hcm, hdep', hsvc, hing⟩

/-- Phases of a run split per invocation. -/
theorem tracePhases_cons (o : Output) (os : List Output) :
    tracePhases (o :: os) = writtenPhases o ++ tracePhases os := by
  simp [tracePhases]

/-- In state C with a persistently available workload, a run writes only
Running phases. -/
theorem auxC (vars : String → String) (tr : List (Int × Int)) :
    ∀ w : World, InvC w → (∀ x ∈ tr, 0 < x.1) →
      ∃ m, tracePhases (runTrace vars w tr).2 = List.replicate m "Running" := by
  induction tr with
  | nil => intro w _ _; exact ⟨0, rfl⟩
  | cons x rest ih =>
    obtain ⟨a, t⟩ := x
    intro w h hall
    have ha : 0 < a := hall (a, t) (List.mem_cons_self _ _)
    obtain ⟨hw, hC⟩ := stepC_high vars a t w h ha
    obtain ⟨m, hm⟩ := ih (runStep vars t (setAvail w a)).1 hC
      (fun x hx => hall x (List.mem_cons_of_mem _ hx))
    show ∃ m, tracePhases ((runStep vars t (setAvail w a)).2 ::
      (runTrace vars (runStep vars t (setAvail w a)).1 rest).2) = _
    rcases hw with h0 | h0
    · exact ⟨m, by rw [tracePhases_cons, h0, hm]; rfl⟩
    · exact ⟨m + 1, by rw [tracePhases_cons, h0, hm, List.replicate_succ]; rfl⟩

/-- From any B state, under a persistent availability trace, the written
phases are some Downloading writes followed by some Running writes. -/
theorem auxB (vars : String → String) (tr : List (Int × Int)) :
    ∀ w : World, persistentB tr = true → (InvB1 w ∨ InvB2 w ∨ InvB3 w) →
      ∃ n m, tracePhases (runTrace vars w tr).2 =
        List.replicate n "Downloading" ++ List.replicate m "Running" := by
  induction tr with
  | nil => intro w _ _; exact ⟨0, 0, rfl⟩
  | cons x rest ih =>
    obtain ⟨a, t⟩ := x
    intro w hpers hinv
    have hpers2 := hpers
    simp only [persistentB, Bool.and_eq_true] at hpers2
    have hpers' : persistentB rest = true := hpers2.2
    show ∃ n m, tracePhases ((runStep vars t (setAvail w a)).2 ::
      (runTrace vars (runStep vars t (setAvail w a)).1 rest).2) = _
    rcases hinv with h1 | h2 | h3
    · obtain ⟨hph0, hnext⟩ := stepB1 vars a t w h1
      obtain ⟨n, m, hnm⟩ := ih _ hpers' (Or.inr (Or.inl hnext))
      exact ⟨n, m, by rw [tracePhases_cons, hph0, hnm]; rfl⟩
    · obtain ⟨hph0, hnext⟩ := stepB2 vars a t w h2
      obtain ⟨n, m, hnm⟩ := ih _ hpers' (Or.inr (Or.inr hnext))
      exact ⟨n, m, by rw [tracePhases_cons, hph0, hnm]; rfl⟩
    · by_cases ha : 0 < a
      · obtain ⟨hph0, hC⟩ := stepB3_high vars a t w h3 ha
        have hall : ∀ x ∈ rest, 0 < x.1 := by
          have h1 := hpers2.1
          rw [if_pos ha] at h1
          intro x hx
          simpa using List.all_eq_true.mp h1 x hx
        obtain ⟨m, hm⟩ := auxC vars rest _ hC hall
        refine ⟨0, m + 1, ?_⟩
        rw [tracePhases_cons, hph0, hm, List.replicate_succ]
        rfl
      · obtain ⟨hph0, hnext⟩ := stepB3_low vars a t w h3 ha
        obtain ⟨n, m, hnm⟩ := ih _ hpers' (Or.inr (Or.inr hnext))
        rcases hph0 with h0 | h0
        · exact ⟨n, m, by rw [tracePhases_cons, h0, hnm]; rfl⟩
        · refine ⟨n + 1, m, ?_⟩
          rw [tracePhases_cons, h0, hnm, List.replicate_succ]
          rfl

/-- C6: for a fresh object under a no-failure trace whose availability is
persistent once positive, the observed phases are Pending, Downloading,
then possibly more Downloading writes followed only by Running writes —
the order Pending, Downloading, Running; and from a Running state with an
available workload, no invocation writes Pending or leaves Running. -/
theorem c6_phase_monotonic :
    (∀ (vars : String → String) (w : World) (ms : ModelServe) (a0 t0 : Int)
        (tr : List (Int × Int)),
        w.ms = some ms → ms.status.phase = "" → w.cm = none → w.dep = none →
        w.svc = none → w.ing = none →
        persistentB ((a0, t0) :: tr) = true →
        ∃ n m, tracePhases (runTrace vars w ((a0, t0) :: tr)).2 =
          "Pending" :: "Downloading" ::
            (List.replicate n "Downloading" ++ List.replicate m "Running"))
    ∧ (∀ (vars : String → String) (t : Int) (w : World) (ms : ModelServe)
        (c : ConfigMap) (d : Deployment) (s : Service) (i : Ingress),
        w.ms = some ms → w.cm = some c → w.dep = some d → w.svc = some s →
        w.ing = some i → ms.status.phase = "Running" → 0 < d.status.availableReplicas →
        ∃ ms1, (runStep vars t w).1.ms = some ms1 ∧ ms1.status.phase = "Running" ∧
          "Pending" ∉ writtenPhases (runStep vars t w).2) := by
  constructor
  · intro vars w ms a0 t0 tr hms hph hcm hdep hsvc hing hpers
    have hdep' : (setAvail w a0).dep = none := by simp [setAvail, hdep]
    have e := runStep_fresh vars t0 (setAvail w a0) ms hms hph hcm hdep'
    have hpers' : persistentB tr = true := by
      simp only [persistentB, Bool.and_eq_true] at hpers
      exact hpers.2
    have hinv : InvB1 (runStep vars t0 (setAvail w a0)).1 := by
      rw [e]
      exact ⟨_, stripPrefixConfigMap ms, deploymentForModelServe vars ms, rfl, rfl, rfl, rfl,
        hsvc, hing⟩
    obtain ⟨n, m, hnm⟩ := auxB vars tr _ hpers' (Or.inl hinv)
    refine ⟨n, m, ?_⟩
    show tracePhases ((runStep vars t0 (setAvail w a0)).2 ::
      (runTrace vars (runStep vars t0 (setAvail w a0)).1 tr).2) = _
    rw [tracePhases_cons, hnm, e]
    rfl
  · intro vars t w ms c d s i hms hcm hdep hsvc hing hph hav
    rw [runStep_children vars t w ms c d s i hms hcm hdep hsvc hing]
    dsimp only
    have hph' : ms.status.phase ≠ "" := by rw [hph]; decide
    simp only [if_neg hph']
    set r := recomputeStatus t (some w.pods) d ms.meta.name ms.meta.name ms.status with hr
    have hphase : r.1.phase = "Running" := by
      rw [hr, recomputeStatus_phase, if_pos hav]
    by_cases hflag : r.2 = true
    · refine ⟨_, rfl, ?_, ?_⟩
      · show (if r.2 then r.1 else ms.status).phase = "Running"
        rw [if_pos hflag]
        exact hphase
      · simp [writtenPhases, hflag, hphase]
    · refine ⟨_, rfl, ?_, ?_⟩
      · show (if r.2 then r.1 else ms.status).phase = "Running"
        rw [if_neg hflag]
        exact hph
      · simp [writtenPhases, hflag]

/-- A fresh demo world: parent present, phase unset, no children. -/
def freshWorld : World :=
  { ms := some demoMS, cm := none, dep := none, svc := none, ing := none, pods := [] }

/-- C6 witness: part one applied to the fresh demo world with a one-entry
available trace, part two applied to the Running ready world. -/
theorem c6_phase_monotonic_witness :
    (∃ n m, tracePhases (runTrace noVars freshWorld [(1, 5)]).2 =
        "Pending" :: "Downloading" ::
          (List.replicate n "Downloading" ++ List.replicate m "Running")) ∧
      ∃ ms1, (runStep noVars 9 runningWorldC5).1.ms = some ms1 ∧
        ms1.status.phase = "Running" ∧
        "Pending" ∉ writtenPhases (runStep noVars 9 runningWorldC5).2 :=
  ⟨c6_phase_monotonic.1 noVars freshWorld demoMS 1 5 [] rfl rfl rfl rfl rfl rfl (by decide),
   c6_phase_monotonic.2 noVars 9 runningWorldC5 runningMSC5 (stripPrefixConfigMap demoMS)
     demoDepReady (serviceForModelServe demoMS) (ingressForModelServe demoMS)
     rfl rfl rfl rfl rfl rfl (by decide)⟩

end InferenceOperator
